import Mathlib

/-!
# cordova-blackberry: Contacts schema mapper and Geolocation shim

A shallow embedding of `src/js/contact_bbw.js` and `src/javascript/geolocation.js`.

Conventions of the embedding

* A JavaScript value that is either a string or `null`/`undefined` is an `Option String`;
  `none` stands for `null` (the code only ever tests such values for truthiness or
  concatenates them).  A string is truthy iff it is not `""`.
* JavaScript arrays are lists; an array slot that may hold `null` is an `Option`.
  `for (i in array)` visits the elements in index order.
* Host objects (`blackberry.pim.*`, `blackberry.find.*`, `Date`, `String.prototype.toLowerCase`,
  `Cordova.exec`, `Cordova.createUUID`, `console.log`) are not part of the repository; their
  observable effect is either a parameter (`Host`) or an entry appended to a log.
* Where a function has statements that can raise an exception, its result is a pair of the
  state reached and the exception that reaches the caller, if any (`Option JSError`).
-/

namespace CordovaBlackBerry

/-! ## JavaScript helpers -/

/-- Truthiness of a string-or-null value: `null` and `""` are falsy. -/
def truthy (v : Option String) : Bool :=
  match v with
  | none => false
  | some s => s != ""

/-- The expression `v || ""` for a string-or-null value `v`. -/
def orEmpty (v : Option String) : String :=
  if truthy v then v.getD "" else ""

/-- String conversion applied by `+` to a string-or-null operand (`null` prints as `"null"`). -/
def jsToString (v : Option String) : String :=
  match v with
  | none => "null"
  | some s => s

/-! ## Data model -/

/-- A JavaScript `Date` object; `time` is the epoch value, `none` for an invalid date. -/
structure JSDate where
  time : Option Int
  deriving DecidableEq, Repr

/-- A birthday or anniversary as a caller may pass it: a `Date` object or a string. -/
inductive DateValue where
  | date (d : JSDate)
  | str (s : String)
  deriving DecidableEq, Repr

/-- Modelled from the spec: the `ContactField` constructor is not in the sources; a typed field
is the record `{type, value}` of the first two constructor arguments. -/
structure ContactField where
  type : Option String
  value : Option String
  deriving DecidableEq, Repr

/-- Modelled from the spec: the `ContactName` constructor is not in the sources; the record holds
the three constructor arguments the mapper supplies (the three remaining ones are always `null`). -/
structure ContactName where
  formatted : Option String
  familyName : Option String
  givenName : Option String
  deriving DecidableEq, Repr

/-- Modelled from the spec: the `ContactAddress` constructor is not in the sources; the record is
`{formatted, streetAddress, locality, region, postalCode, country}` in constructor order. -/
structure ContactAddress where
  formatted : Option String
  streetAddress : Option String
  locality : Option String
  region : Option String
  postalCode : Option String
  country : Option String
  deriving DecidableEq, Repr

/-- Modelled from the spec: the `ContactOrganization` constructor is not in the sources; the
record is `{name, title}` (the other constructor arguments are always `null` in the mapper). -/
structure ContactOrganization where
  name : Option String
  title : Option String
  deriving DecidableEq, Repr

/-- Modelled from the spec: the `Contact` constructor is not in the sources; the record holds the
fields the mapper reads or fills (all remaining constructor arguments are `null` or `[]`). -/
structure Contact where
  id : Option String
  displayName : Option String
  name : Option ContactName
  phoneNumbers : Option (List (Option ContactField))
  emails : Option (List (Option ContactField))
  addresses : Option (List (Option ContactAddress))
  organizations : Option (List (Option ContactOrganization))
  birthday : Option DateValue
  anniversary : Option DateValue
  note : Option String
  urls : Option (List (Option ContactField))
  deriving DecidableEq, Repr

/-- The vendor address object `blackberry.pim.Address`. -/
structure BBAddress where
  address1 : Option String
  address2 : Option String
  city : Option String
  stateProvince : Option String
  zipPostal : Option String
  country : Option String
  deriving DecidableEq, Repr

/-- The vendor contact record `blackberry.pim.Contact`. -/
structure BBContact where
  uid : Option String
  firstName : Option String
  lastName : Option String
  title : Option String
  note : Option String
  birthday : Option JSDate
  anniversary : Option JSDate
  email1 : Option String
  email2 : Option String
  email3 : Option String
  homePhone : Option String
  homePhone2 : Option String
  workPhone : Option String
  workPhone2 : Option String
  mobilePhone : Option String
  faxPhone : Option String
  pagerPhone : Option String
  otherPhone : Option String
  homeAddress : Option BBAddress
  workAddress : Option BBAddress
  webpage : Option String
  company : Option String
  jobTitle : Option String
  deriving DecidableEq, Repr

/-- Modelled from the spec: `new blackberry.pim.Address()` is a host constructor; every slot of
a new vendor address is the empty string. -/
def newBBAddress : BBAddress :=
  { address1 := some "", address2 := some "", city := some "", stateProvince := some "",
    zipPostal := some "", country := some "" }

/-- Modelled from the spec: `new blackberry.pim.Contact()` is a host constructor; every text
slot of a new blank record is the empty string, the date and address slots hold no object. -/
def newBBContact : BBContact :=
  { uid := some "", firstName := some "", lastName := some "", title := some "",
    note := some "", birthday := none, anniversary := none,
    email1 := some "", email2 := some "", email3 := some "",
    homePhone := some "", homePhone2 := some "", workPhone := some "", workPhone2 := some "",
    mobilePhone := some "", faxPhone := some "", pagerPhone := some "", otherPhone := some "",
    homeAddress := none, workAddress := none,
    webpage := some "", company := some "", jobTitle := some "" }

/-- The vendor query object `blackberry.find.FilterExpression(left, operator, right)`: a leaf
`(field, op, value)` or a combination of two sub-expressions. -/
inductive FilterExpression where
  | leaf (field : String) (op : String) (value : String)
  | comb (left : FilterExpression) (op : String) (right : FilterExpression)
  deriving DecidableEq, Repr

/-- The host services the mapper calls: the vendor store query `blackberry.pim.Contact.find`,
the `Date` constructor applied to a string, and the case conversions of a one-character
string. -/
structure Host where
  find : FilterExpression → List BBContact
  newDate : String → JSDate
  toLowerCase : Char → String
  toUpperCase : Char → String

/-! ## `BlackBerryContacts.fieldMappings` -/

/-- A value of the field-mapping table: a single vendor field name or an array of them. -/
inductive BBFields where
  | single (s : String)
  | array (l : List String)
  deriving DecidableEq, Repr

/-- The phone slots in the order of the table. -/
def phoneFields : List String :=
  ["faxPhone", "homePhone", "homePhone2", "mobilePhone", "pagerPhone", "otherPhone",
   "workPhone", "workPhone2"]

/-- The address slots in the order of the table. -/
def addressFields : List String :=
  ["homeAddress.address1", "homeAddress.address2", "homeAddress.city",
   "homeAddress.stateProvince", "homeAddress.zipPostal", "homeAddress.country",
   "workAddress.address1", "workAddress.address2", "workAddress.city",
   "workAddress.stateProvince", "workAddress.zipPostal", "workAddress.country"]

/-- The table `this.fieldMappings`, as the list of its `key : value` pairs in source order. -/
def fieldMappingsTable : List (String × BBFields) :=
  [ ("id", .single "uid"),
    ("displayName", .single "title"),
    ("name", .array ["firstName", "lastName"]),
    ("name.formatted", .array ["firstName", "lastName"]),
    ("givenName", .single "firstName"),
    ("familyName", .single "lastName"),
    ("phoneNumbers", .array phoneFields),
    ("phoneNumbers.value", .array phoneFields),
    ("emails", .array ["email1", "email2", "email3"]),
    ("addresses", .array addressFields),
    ("addresses.formatted", .array addressFields),
    ("addresses.streetAddress", .array ["homeAddress.address1", "homeAddress.address2",
                                        "workAddress.address1", "workAddress.address2"]),
    ("addresses.locality", .array ["homeAddress.city", "workAddress.city"]),
    ("addresses.region", .array ["homeAddress.stateProvince", "workAddress.stateProvince"]),
    ("addresses.country", .array ["homeAddress.country", "workAddress.country"]),
    ("organizations", .array ["company", "jobTitle"]),
    ("organizations.title", .single "jobTitle"),
    ("birthday", .single "birthday"),
    ("anniversary", .single "anniversary"),
    ("note", .single "note"),
    ("urls", .single "webpage"),
    ("urls.value", .single "webpage") ]

/-- The property read `fieldMappings[key]`; `none` when the table has no such key. -/
def fieldMappings (key : String) : Option BBFields :=
  (fieldMappingsTable.find? (fun kv => kv.1 == key)).map (fun kv => kv.2)

/-- The values `bbFields[j]` visited by `for (var j in bbFields)`: the elements of an array,
and the one-character strings of a string (whose enumerable properties are its indices). -/
def forIn (bbFields : BBFields) : List String :=
  match bbFields with
  | .array l => l
  | .single s => s.toList.map Char.toString

/-! ## `BlackBerryContacts.findByUniqueId` -/

/-- The function `BlackBerryContacts.findByUniqueId(uid)`.  The first component lists the
queries sent to the store, the second is the returned record (`none` for `null`). -/
def findByUniqueId (host : Host) (uid : Option String) : List FilterExpression × Option BBContact :=
  if !truthy uid then
    ([], none)
  else
    let q := FilterExpression.leaf "uid" "==" (uid.getD "")
    ([q], (host.find q).head?)

/-! ## `BlackBerryContacts.saveToDevice` -/

/-- Truthiness of a birthday or anniversary value: `null` and `""` are falsy, a `Date` object
and a non-empty string are truthy. -/
def dateTruthy (v : Option DateValue) : Bool :=
  match v with
  | none => false
  | some (.date _) => true
  | some (.str s) => s != ""

/-- The expression `(v instanceof Date) ? v : new Date(v.toString())`. -/
def toJSDate (host : Host) (v : DateValue) : JSDate :=
  match v with
  | .date d => d
  | .str s => host.newDate s

/-- One pass of the body of the loop over `contact.emails` (source lines 139-151). -/
def emailStep (bbContact : BBContact) (email : Option ContactField) : BBContact :=
  match email with
  | none => bbContact
  | some e =>
    if !truthy e.value then bbContact
    else if bbContact.email1 = some "" then { bbContact with email1 := e.value }
    else if bbContact.email2 = some "" then { bbContact with email2 := e.value }
    else if bbContact.email3 = some "" then { bbContact with email3 := e.value }
    else bbContact

/-- One pass of the body of the loop over `contact.phoneNumbers` (source lines 161-188). -/
def phoneStep (bbContact : BBContact) (entry : Option ContactField) : BBContact :=
  match entry with
  | none => bbContact
  | some f =>
    if !truthy f.value then bbContact
    else
      let type := f.type
      let number := f.value
      if type = some "home" then
        if bbContact.homePhone = some "" then { bbContact with homePhone := number }
        else if bbContact.homePhone2 = some "" then { bbContact with homePhone2 := number }
        else bbContact
      else if type = some "work" then
        if bbContact.workPhone = some "" then { bbContact with workPhone := number }
        else if bbContact.workPhone2 = some "" then { bbContact with workPhone2 := number }
        else bbContact
      else if type = some "mobile" ∧ bbContact.mobilePhone = some "" then
        { bbContact with mobilePhone := number }
      else if type = some "fax" ∧ bbContact.faxPhone = some "" then
        { bbContact with faxPhone := number }
      else if type = some "pager" ∧ bbContact.pagerPhone = some "" then
        { bbContact with pagerPhone := number }
      else if bbContact.otherPhone = some "" then
        { bbContact with otherPhone := number }
      else bbContact

/-- The method `ContactAddress.prototype.toBlackBerryAddress`. -/
def ContactAddress.toBlackBerryAddress (self : ContactAddress) : BBAddress :=
  { newBBAddress with
    address1 := some (orEmpty self.streetAddress)
    city := some (orEmpty self.locality)
    stateProvince := some (orEmpty self.region)
    zipPostal := some (orEmpty self.postalCode)
    country := some (orEmpty self.country) }

/-- The variables of the loop over `contact.addresses`: the record and the two locals
`bbHomeAddress` and `bbWorkAddress`. -/
structure AddressLoop where
  bbContact : BBContact
  bbHomeAddress : Option BBAddress
  bbWorkAddress : Option BBAddress
  deriving DecidableEq, Repr

/-- One pass of the body of the loop over `contact.addresses` (source lines 199-211). -/
def addressStep (st : AddressLoop) (address : Option ContactAddress) : AddressLoop :=
  match address with
  | none => st
  | some a =>
    if st.bbHomeAddress = none then
      let b := a.toBlackBerryAddress
      { st with bbHomeAddress := some b, bbContact := { st.bbContact with homeAddress := some b } }
    else if st.bbWorkAddress = none then
      let b := a.toBlackBerryAddress
      { st with bbWorkAddress := some b, bbContact := { st.bbContact with workAddress := some b } }
    else st

/-- The loop over `contact.addresses` (source lines 195-212), started with both locals
`null`; the result is the record after the loop. -/
def addressLoop (bbContact : BBContact) (l : List (Option ContactAddress)) : BBContact :=
  (l.foldl addressStep
    { bbContact := bbContact, bbHomeAddress := none, bbWorkAddress := none }).bbContact

/-- The loop over `contact.urls` (source lines 218-227); it stops at the first write. -/
def urlLoop (bbContact : BBContact) : List (Option ContactField) → BBContact
  | [] => bbContact
  | url :: rest =>
    match url with
    | none => urlLoop bbContact rest
    | some u =>
      if !truthy u.value then urlLoop bbContact rest
      else if bbContact.webpage = some "" then { bbContact with webpage := u.value }
      else urlLoop bbContact rest

/-- The loop over `contact.organizations` (source lines 234-244); it stops at the first
write. -/
def orgLoop (bbContact : BBContact) : List (Option ContactOrganization) → BBContact
  | [] => bbContact
  | org :: rest =>
    match org with
    | none => orgLoop bbContact rest
    | some o =>
      if bbContact.company = some "" then
        { bbContact with company := some (orEmpty o.name), jobTitle := some (orEmpty o.title) }
      else orgLoop bbContact rest

/-- The elements of an array-valued contact property; `null` counts as no elements
(the guard `x && x instanceof Array`). -/
def arrayOf {α : Type} (x : Option (List α)) : List α :=
  x.getD []

/-- The field-copying part of `saveToDevice` (source lines 107-245), applied to the record
`bbContact` that is about to be saved. -/
def copyToBlackBerry (host : Host) (contact : Contact) (bbContact : BBContact) : BBContact :=
  let bb1 :=
    match contact.name with
    | some name =>
      { bbContact with
        firstName := some (orEmpty name.givenName)
        lastName := some (orEmpty name.familyName) }
    | none => bbContact
  let bb2 := { bb1 with title := some (orEmpty contact.displayName)
                        note := some (orEmpty contact.note) }
  let bb3 :=
    if dateTruthy contact.birthday then
      { bb2 with birthday := contact.birthday.map (toJSDate host) }
    else bb2
  let bb4 :=
    if dateTruthy contact.anniversary then
      { bb3 with anniversary := contact.anniversary.map (toJSDate host) }
    else bb3
  let bb5 := (arrayOf contact.emails).foldl emailStep bb4
  let bb6 := (arrayOf contact.phoneNumbers).foldl phoneStep bb5
  let bb7 := addressLoop bb6 (arrayOf contact.addresses)
  let bb8 := urlLoop bb7 (arrayOf contact.urls)
  orgLoop bb8 (arrayOf contact.organizations)

/-- The record `saveToDevice` starts from: the stored record found under `contact.id`, or a
new blank record (source lines 95-105). -/
def recordFor (host : Host) (contact : Contact) : BBContact :=
  let found := if truthy contact.id then (findByUniqueId host contact.id).2 else none
  match found with
  | some bbContact => bbContact
  | none => newBBContact

/-- The function `BlackBerryContacts.saveToDevice(contact)`: the record on which `save()` is
called, `none` when the function returns early on a `null` contact.  (The uid the source
returns is assigned by the host store.) -/
def saveToDevice (host : Host) (contact : Option Contact) : Option BBContact :=
  match contact with
  | none => none
  | some c => some (copyToBlackBerry host c (recordFor host c))

/-! ## `BlackBerryContacts.buildFilterExpression` -/

/-- The case-insensitive pattern `ciFilter` built by the loop at source lines 281-285. -/
def ciFilter (host : Host) (filter : String) : String :=
  filter.toList.foldl
    (fun acc c => acc ++ "[" ++ host.toLowerCase c ++ host.toUpperCase c ++ "]") ""

/-- One pass of the inner loop (source lines 309-315): add the predicate for one vendor
field to the expression built so far. -/
def addPredicate (pattern : String) (filterExpression : Option FilterExpression)
    (bbField : String) : Option FilterExpression :=
  let fe := FilterExpression.leaf bbField "REGEX" pattern
  match filterExpression with
  | none => some fe
  | some e => some (FilterExpression.comb e "OR" fe)

/-- One pass of the outer loop (source lines 295-316) for the requested name `field`. -/
def fieldStep (pattern : String) (filterExpression : Option FilterExpression)
    (field : Option String) : Option FilterExpression :=
  if !truthy field then filterExpression
  else
    match fieldMappings (field.getD "") with
    | none => filterExpression
    | some bbFields => (forIn bbFields).foldl (addPredicate pattern) filterExpression

/-- The function `BlackBerryContacts.buildFilterExpression(fields, filter)`. -/
def buildFilterExpression (host : Host) (fields : Option (List (Option String)))
    (filter : Option String) : Option FilterExpression :=
  if !truthy filter then none
  else
    let pattern := ".*" ++ ciFilter host (filter.getD "") ++ ".*"
    match fields with
    | none => none
    | some fs => fs.foldl (fieldStep pattern) none

/-! ## Address and contact factories -/

/-- The factory `ContactAddress.fromBlackBerryAddress(bbAddress)`. -/
def ContactAddress.fromBlackBerryAddress (bbAddress : Option BBAddress) : Option ContactAddress :=
  match bbAddress with
  | none => none
  | some b =>
    let address1 := orEmpty b.address1
    let address2 := orEmpty b.address2
    let streetAddress := address1 ++ ", " ++ address2
    let locality := orEmpty b.city
    let region := orEmpty b.stateProvince
    let postalCode := orEmpty b.zipPostal
    let country := orEmpty b.country
    let formatted :=
      streetAddress ++ ", " ++ locality ++ ", " ++ region ++ ", " ++ postalCode ++ ", " ++ country
    some { formatted := some formatted, streetAddress := some streetAddress,
           locality := some locality, region := some region,
           postalCode := some postalCode, country := some country }

/-- The statement `if (slot) { list.push(new ContactField(type, slot)); }`. -/
def pushField (type : Option String) (slot : Option String) : List (Option ContactField) :=
  if truthy slot then [some { type := type, value := slot }] else []

/-- The factory `Contact.fromBlackBerryContact(bbContact)`. -/
def Contact.fromBlackBerryContact (bbContact : Option BBContact) : Option Contact :=
  match bbContact with
  | none => none
  | some bb =>
    let formattedName := jsToString bb.firstName ++ " " ++ jsToString bb.lastName
    let name : ContactName :=
      { formatted := some formattedName, familyName := bb.lastName, givenName := bb.firstName }
    let phoneNumbers :=
      pushField (some "home") bb.homePhone ++ pushField (some "home") bb.homePhone2 ++
      pushField (some "work") bb.workPhone ++ pushField (some "work") bb.workPhone2 ++
      pushField (some "mobile") bb.mobilePhone ++ pushField (some "fax") bb.faxPhone ++
      pushField (some "pager") bb.pagerPhone ++ pushField (some "other") bb.otherPhone
    let emails :=
      pushField none bb.email1 ++ pushField none bb.email2 ++ pushField none bb.email3
    let addresses :=
      (match bb.homeAddress with
        | some a => [ContactAddress.fromBlackBerryAddress (some a)]
        | none => []) ++
      (match bb.workAddress with
        | some a => [ContactAddress.fromBlackBerryAddress (some a)]
        | none => [])
    let organizations : List (Option ContactOrganization) :=
      if truthy bb.company || truthy bb.jobTitle then
        [some { name := bb.company, title := bb.jobTitle }]
      else []
    let urls := pushField none bb.webpage
    some { id := bb.uid, displayName := bb.title, name := some name,
           phoneNumbers := some phoneNumbers, emails := some emails,
           addresses := some addresses, organizations := some organizations,
           birthday := bb.birthday.map DateValue.date,
           anniversary := bb.anniversary.map DateValue.date,
           note := bb.note, urls := some urls }

/-! ## Geolocation shim (`src/javascript/geolocation.js`) -/

/-- The object built by `new PositionError(code, message)`. -/
structure PositionError where
  code : Int
  message : String
  deriving DecidableEq, Repr

/-- The constant `PositionError.PERMISSION_DENIED`. -/
def PositionError.PERMISSION_DENIED : Int := 1

/-- The constant `PositionError.POSITION_UNAVAILABLE`. -/
def PositionError.POSITION_UNAVAILABLE : Int := 2

/-- The constant `PositionError.TIMEOUT`. -/
def PositionError.TIMEOUT : Int := 3

/-- Modelled from the spec: the `Coordinates` constructor is not in the sources; the record
holds its seven nullable numeric arguments in constructor order. -/
structure Coordinates where
  latitude : Option Rat
  longitude : Option Rat
  altitude : Option Rat
  accuracy : Option Rat
  heading : Option Rat
  speed : Option Rat
  altitudeAccuracy : Option Rat
  deriving DecidableEq, Repr

/-- Modelled from the spec: the `Position` constructor is not in the sources; the record is
`{coords, timestamp}`. -/
structure Position where
  coords : Coordinates
  timestamp : Option Int
  deriving DecidableEq, Repr

/-- The raw fix `result.message` delivered by the native layer. -/
structure RawFix where
  latitude : Option Rat
  longitude : Option Rat
  altitude : Option Rat
  accuracy : Option Rat
  heading : Option Rat
  speed : Option Rat
  alt_accuracy : Option Rat
  timestamp : Option Int
  deriving DecidableEq, Repr

/-- The result object `{message: rawFix}` handed to the native callback `success`; a missing
`message` is `none`. -/
structure FixResult where
  message : Option RawFix
  deriving DecidableEq, Repr

/-- The raw error `{status, message}` delivered by the native layer. -/
structure RawError where
  status : Int
  message : String
  deriving DecidableEq, Repr

/-- A caller-supplied callback function: an identity, and whether a call of it throws.
Callbacks are opaque to the shim: calling one is recorded, it does not re-enter the shim. -/
structure Callback where
  id : Nat
  throws : Bool
  deriving DecidableEq, Repr

/-- An exception raised while the shim runs: a `TypeError` of the engine (a property read on
`null` or `undefined`, a call of something that is not a function), or whatever a callback
throws. -/
inductive JSError where
  | typeError
  | thrownBy (cb : Callback)
  deriving DecidableEq, Repr

/-- The argument a callback is called with. -/
inductive CallbackArg where
  | position (p : Position)
  | error (e : PositionError)
  deriving DecidableEq, Repr

/-- A listener entry `{"success" : successCallback, "fail" : errorCallback}`; an omitted
callback is `none`. -/
structure Listener where
  success : Option Callback
  fail : Option Callback
  deriving DecidableEq, Repr

/-- The options object; an absent member is `none`.  Durations are numbers of milliseconds. -/
structure PositionOptions where
  maximumAge : Option Int
  timeout : Option Int
  enableHighAccuracy : Option Bool
  deriving DecidableEq, Repr

/-- An element of the argument array handed to `Cordova.exec`. -/
inductive ExecArg where
  | str (s : String)
  | num (n : Int)
  | bool (b : Bool)
  deriving DecidableEq, Repr

/-- A recorded call `Cordova.exec(success, fail, service, action, args)`. -/
structure ExecCall where
  success : Option Callback
  fail : Option Callback
  service : String
  action : String
  args : List ExecArg
  deriving DecidableEq, Repr

/-- The state of the shim `navigator._geo` (`lastPosition`, `listeners`, the latter as the
list of its `id : entry` properties in insertion order) together with what it has done to its
environment: the requests passed to `Cordova.exec`, the callback calls made, and the lines
written with `console.log`. -/
structure Geolocation where
  lastPosition : Option Position
  listeners : List (String × Listener)
  execLog : List ExecCall
  calls : List (Callback × CallbackArg)
  console : List String
  deriving DecidableEq, Repr

/-- The state built by the constructor `Geolocation()`, with empty logs. -/
def Geolocation.new : Geolocation :=
  { lastPosition := none, listeners := [], execLog := [], calls := [], console := [] }

/-- The property read `listeners[id]`. -/
def getListener (listeners : List (String × Listener)) (id : String) : Option Listener :=
  listeners.lookup id

/-- The assignment `listeners[id] = entry`: an existing property keeps its place. -/
def setListener (listeners : List (String × Listener)) (id : String) (entry : Listener) :
    List (String × Listener) :=
  if (listeners.lookup id).isSome then
    listeners.map (fun kv => if kv.1 = id then (id, entry) else kv)
  else listeners ++ [(id, entry)]

/-- The statement `delete listeners[id]`. -/
def deleteListener (listeners : List (String × Listener)) (id : String) :
    List (String × Listener) :=
  listeners.filter (fun kv => kv.1 != id)

/-- Calling `f(arg)` where `f` may be absent: the call is recorded when `f` is a function; the
second component is the exception the call ends with, if any (the callback throws, or `f` is
not a function). -/
def callCallback (st : Geolocation) (f : Option Callback) (arg : CallbackArg) :
    Geolocation × Option JSError :=
  match f with
  | none => (st, some JSError.typeError)
  | some cb =>
    ({ st with calls := st.calls ++ [(cb, arg)] },
      if cb.throws then some (JSError.thrownBy cb) else none)

/-- The effective `maximumAge` (source lines 75, 82-84 and 109, 118-120). -/
def maximumAgeOf (options : Option PositionOptions) : Int :=
  match options with
  | none => 0
  | some o =>
    match o.maximumAge with
    | none => 0
    | some m => if m ≠ 0 ∧ m > 0 then m else 0

/-- The effective `timeout` for the default `dflt` (source lines 78, 88-90 and 114, 124-126). -/
def timeoutOf (dflt : Int) (options : Option PositionOptions) : Int :=
  match options with
  | none => dflt
  | some o =>
    match o.timeout with
    | none => dflt
    | some t => if t ≠ 0 then (if t < 0 then 0 else t) else dflt

/-- The effective `enableHighAccuracy` (source lines 80, 85-87 and 116, 121-123). -/
def enableHighAccuracyOf (options : Option PositionOptions) : Bool :=
  match options with
  | none => false
  | some o =>
    match o.enableHighAccuracy with
    | none => false
    | some b => if b then b else false

/-- The message of the rejection of a second one-shot request. -/
def stillWaiting : String :=
  "Geolocation Error: Still waiting for previous getCurrentPosition() request."

/-- The method `Geolocation.prototype.getCurrentPosition`. -/
def getCurrentPosition (st : Geolocation) (successCallback errorCallback : Option Callback)
    (options : Option PositionOptions) : Geolocation :=
  let id := "global"
  if (getListener st.listeners id).isSome then
    let st1 := { st with console := st.console ++ [stillWaiting] }
    (callCallback st1 errorCallback
      (.error { code := PositionError.TIMEOUT, message := stillWaiting })).1
  else
    let maximumAge := maximumAgeOf options
    let timeout := timeoutOf 3600000 options
    let enableHighAccuracy := enableHighAccuracyOf options
    { st with
      listeners := setListener st.listeners id
        { success := successCallback, fail := errorCallback }
      execLog := st.execLog ++
        [{ success := none, fail := errorCallback, service := "Geolocation",
           action := "getCurrentPosition",
           args := [.str id, .num maximumAge, .num timeout, .bool enableHighAccuracy] }] }

/-- The method `Geolocation.prototype.watchPosition`; `uuid` is the value returned by
`Cordova.createUUID()` in this call.  The second component is the returned id. -/
def watchPosition (uuid : String) (st : Geolocation)
    (successCallback errorCallback : Option Callback)
    (options : Option PositionOptions) : Geolocation × String :=
  let maximumAge := maximumAgeOf options
  let timeout := timeoutOf 10000 options
  let enableHighAccuracy := enableHighAccuracyOf options
  let id := uuid
  ({ st with
     listeners := setListener st.listeners id
       { success := successCallback, fail := errorCallback }
     execLog := st.execLog ++
       [{ success := none, fail := errorCallback, service := "Geolocation",
          action := "watchPosition",
          args := [.str id, .num maximumAge, .num timeout, .bool enableHighAccuracy] }] }, id)

/-- The line logged when the success callback cannot be called or throws. -/
def successCallbackError : String :=
  "Geolocation Error: Error calling success callback function."

/-- The line logged when the error callback cannot be called or throws. -/
def errorCallbackError : String :=
  "Geolocation Error: Error calling error callback function."

/-- The one-shot cleanup `if (id == "global") { delete listeners["global"]; }`. -/
def cleanupGlobal (st : Geolocation) (id : String) : Geolocation :=
  if id = "global" then { st with listeners := deleteListener st.listeners "global" } else st

/-- The `catch` blocks of `success` and `fail`: an exception raised inside the `try` is
replaced by a logged line. -/
def catchAndLog (line : String) (tried : Geolocation × Option JSError) : Geolocation :=
  match tried.2 with
  | none => tried.1
  | some _ => { tried.1 with console := tried.1.console ++ [line] }

/-- The native callback `Geolocation.prototype.success(id, result)`.  The second component is
the exception that reaches the caller, if any.  The reads `result.message` and `p.latitude`
stand outside the `try` and raise a `TypeError` on a missing object; inside the `try`, the read
`.success` of a missing entry, the call of an absent callback and a throwing callback all end
in the `catch`. -/
def Geolocation.success (st : Geolocation) (id : String) (result : Option FixResult) :
    Geolocation × Option JSError :=
  match result with
  | none => (st, some JSError.typeError)
  | some res =>
    match res.message with
    | none => (st, some JSError.typeError)
    | some p =>
      let coords : Coordinates :=
        { latitude := p.latitude, longitude := p.longitude, altitude := p.altitude,
          accuracy := p.accuracy, heading := p.heading, speed := p.speed,
          altitudeAccuracy := p.alt_accuracy }
      let loc : Position := { coords := coords, timestamp := p.timestamp }
      let st1 := { st with lastPosition := some loc }
      let tried :=
        match getListener st1.listeners id with
        | none => (st1, some JSError.typeError)
        | some entry => callCallback st1 entry.success (.position loc)
      let st2 := catchAndLog successCallbackError tried
      (cleanupGlobal st2 id, none)

/-- The native callback `Geolocation.prototype.fail(id, result)`.  The second component is the
exception that reaches the caller, if any: the read `result.status` stands outside the `try`;
the `try` and `catch` are as in `success`. -/
def Geolocation.fail (st : Geolocation) (id : String) (result : Option RawError) :
    Geolocation × Option JSError :=
  match result with
  | none => (st, some JSError.typeError)
  | some res =>
    let code := res.status
    let msg := res.message
    let tried :=
      match getListener st.listeners id with
      | none => (st, some JSError.typeError)
      | some entry => callCallback st entry.fail (.error { code := code, message := msg })
    let st2 := catchAndLog errorCallbackError tried
    (cleanupGlobal st2 id, none)

/-- The method `Geolocation.prototype.clearWatch(id)`. -/
def Geolocation.clearWatch (st : Geolocation) (id : String) : Geolocation :=
  { st with
    execLog := st.execLog ++
      [{ success := none, fail := none, service := "Geolocation", action := "stop",
         args := [.str id] }]
    listeners := deleteListener st.listeners id }

/-! ## Sample inputs and specification-side functions -/

/-- A host with an empty store, whose case conversions are those of ASCII letters. -/
def asciiHost : Host :=
  { find := fun _ => []
    newDate := fun _ => { time := none }
    toLowerCase := fun c => c.toLower.toString
    toUpperCase := fun c => c.toUpper.toString }

/-- A fully filled-in address. -/
def sampleAddress : ContactAddress :=
  { formatted := some "1 Main St, Springfield", streetAddress := some "1 Main St",
    locality := some "Springfield", region := some "IL", postalCode := some "62701",
    country := some "USA" }

/-- A contact with every property absent. -/
def emptyContact : Contact :=
  { id := none, displayName := none, name := none, phoneNumbers := none, emails := none,
    addresses := none, organizations := none, birthday := none, anniversary := none,
    note := none, urls := none }

/-- The character class `[lower(c)upper(c)]` the spec assigns to one character of the filter
text. -/
def charClass (host : Host) (c : Char) : String :=
  "[" ++ (host.toLowerCase c ++ (host.toUpperCase c ++ "]"))

/-- A callback that returns normally. -/
def okCallback (n : Nat) : Callback :=
  { id := n, throws := false }

/-- A state with one outstanding one-shot request. -/
def waitingState : Geolocation :=
  { Geolocation.new with
    listeners := [("global", { success := some (okCallback 1), fail := some (okCallback 2) })] }

/-- Two records hold the same values in their eight phone slots. -/
def samePhones (a b : BBContact) : Prop :=
  a.homePhone = b.homePhone ∧ a.homePhone2 = b.homePhone2 ∧ a.workPhone = b.workPhone ∧
  a.workPhone2 = b.workPhone2 ∧ a.mobilePhone = b.mobilePhone ∧ a.faxPhone = b.faxPhone ∧
  a.pagerPhone = b.pagerPhone ∧ a.otherPhone = b.otherPhone

/-- The record `a` with its eight phone slots replaced by those of `r`. -/
def withPhonesOf (a r : BBContact) : BBContact :=
  { a with homePhone := r.homePhone, homePhone2 := r.homePhone2, workPhone := r.workPhone,
           workPhone2 := r.workPhone2, mobilePhone := r.mobilePhone, faxPhone := r.faxPhone,
           pagerPhone := r.pagerPhone, otherPhone := r.otherPhone }

/-- The value of a non-empty entry of a list of typed fields (`none` for a `null` entry and for
an entry whose value is falsy). -/
def entryValue (e : Option ContactField) : Option String :=
  match e with
  | none => none
  | some f => if truthy f.value then f.value else none

/-- The values of the non-empty entries of a list of typed fields, in list order. -/
def nonEmptyValues (l : List (Option ContactField)) : List String :=
  l.filterMap entryValue

/-- The values of the non-empty entries whose type satisfies `p`, in list order. -/
def valuesWhere (p : Option String → Bool) (l : List (Option ContactField)) : List String :=
  nonEmptyValues (l.filter (fun e => p (e.bind ContactField.type)))

/-- The values of the non-empty entries of type `t`, in list order. -/
def valuesOfType (t : String) (l : List (Option ContactField)) : List String :=
  valuesWhere (fun x => decide (x = some t)) l

/-- A type that is none of "home", "work", "mobile", "fax", "pager" (or is absent). -/
def isOtherType (x : Option String) : Bool :=
  decide (x ≠ some "home" ∧ x ≠ some "work" ∧ x ≠ some "mobile" ∧ x ≠ some "fax" ∧
    x ≠ some "pager")

/-- The values of the non-empty entries of any other type, in list order. -/
def valuesOther (l : List (Option ContactField)) : List String :=
  valuesWhere isOtherType l

/-- A contact with four non-empty emails. -/
def fourEmails : Contact :=
  { emptyContact with
    emails := some [some { type := some "work", value := some "a@x.org" },
                    some { type := some "home", value := some "b@x.org" },
                    some { type := none, value := some "c@x.org" },
                    some { type := none, value := some "d@x.org" }] }

/-- The contact `c` with only its first three non-empty emails kept. -/
def firstThreeEmails (c : Contact) : Contact :=
  { c with
    emails := some (((arrayOf c.emails).filter (fun e => (entryValue e).isSome)).take 3) }

/-- Two records hold the same values in the six phone slots other than the home slots. -/
def sameNonHome (a b : BBContact) : Prop :=
  a.workPhone = b.workPhone ∧ a.workPhone2 = b.workPhone2 ∧ a.mobilePhone = b.mobilePhone ∧
  a.faxPhone = b.faxPhone ∧ a.pagerPhone = b.pagerPhone ∧ a.otherPhone = b.otherPhone

/-- Two records hold the same values in the six phone slots other than the work slots. -/
def sameNonWork (a b : BBContact) : Prop :=
  a.homePhone = b.homePhone ∧ a.homePhone2 = b.homePhone2 ∧ a.mobilePhone = b.mobilePhone ∧
  a.faxPhone = b.faxPhone ∧ a.pagerPhone = b.pagerPhone ∧ a.otherPhone = b.otherPhone

/-- The entries of a phone list whose type is not `t`. -/
def withoutType (t : String) (l : List (Option ContactField)) : List (Option ContactField) :=
  l.filter (fun e => !decide (e.bind ContactField.type = some t))

/-- The contact `c` with the phone entries of type `t` removed. -/
def withoutPhoneType (t : String) (c : Contact) : Contact :=
  { c with phoneNumbers := some (withoutType t (arrayOf c.phoneNumbers)) }

/-- A contact with two non-empty "mobile" numbers. -/
def twoMobiles : Contact :=
  { emptyContact with
    phoneNumbers := some [some { type := some "mobile", value := some "111" },
                          some { type := some "mobile", value := some "222" }] }

/-- A contact with three "home" numbers, two "work" numbers and a "mobile" number. -/
def manyPhones : Contact :=
  { emptyContact with
    phoneNumbers := some [some { type := some "home", value := some "1" },
                          some { type := some "work", value := some "2" },
                          some { type := some "home", value := some "3" },
                          some { type := some "home", value := some "4" },
                          some { type := some "mobile", value := some "5" },
                          some { type := some "work", value := some "6" }] }

/-- The bounds of the lossless subset, counting the entries the mapper does not skip: at most
3 emails, at most 2 addresses, at most one phone number per type category, at most one
organization and at most one url. -/
def withinSlots (c : Contact) : Prop :=
  (nonEmptyValues (arrayOf c.emails)).length ≤ 3
    ∧ ((arrayOf c.addresses).filterMap id).length ≤ 2
    ∧ (valuesOfType "home" (arrayOf c.phoneNumbers)).length ≤ 1
    ∧ (valuesOfType "work" (arrayOf c.phoneNumbers)).length ≤ 1
    ∧ (valuesOfType "mobile" (arrayOf c.phoneNumbers)).length ≤ 1
    ∧ (valuesOfType "fax" (arrayOf c.phoneNumbers)).length ≤ 1
    ∧ (valuesOfType "pager" (arrayOf c.phoneNumbers)).length ≤ 1
    ∧ (valuesOther (arrayOf c.phoneNumbers)).length ≤ 1
    ∧ ((arrayOf c.organizations).filterMap id).length ≤ 1
    ∧ (nonEmptyValues (arrayOf c.urls)).length ≤ 1

instance (c : Contact) : Decidable (withinSlots c) := by
  unfold withinSlots
  infer_instance

/-- The name that comes back from the vendor record: given and family name (or ""), and a
formatted name joined from them. -/
def roundName (n : Option ContactName) : ContactName :=
  { formatted := some (orEmpty (n.bind ContactName.givenName) ++ " " ++
      orEmpty (n.bind ContactName.familyName))
    familyName := some (orEmpty (n.bind ContactName.familyName))
    givenName := some (orEmpty (n.bind ContactName.givenName)) }

/-- The fields of type `t` with the values `vs`. -/
def typedFields (t : Option String) (vs : List String) : List (Option ContactField) :=
  vs.map (fun v => some { type := t, value := some v })

/-- The emails or urls that come back: the non-empty values, without a type. -/
def roundFields (l : List (Option ContactField)) : List (Option ContactField) :=
  typedFields none (nonEmptyValues l)

/-- The phone numbers that come back: the non-empty values grouped in the fixed slot order,
every type outside the five named ones relabelled "other". -/
def roundPhones (l : List (Option ContactField)) : List (Option ContactField) :=
  typedFields (some "home") (valuesOfType "home" l) ++
  typedFields (some "work") (valuesOfType "work" l) ++
  typedFields (some "mobile") (valuesOfType "mobile" l) ++
  typedFields (some "fax") (valuesOfType "fax" l) ++
  typedFields (some "pager") (valuesOfType "pager" l) ++
  typedFields (some "other") (valuesOther l)

/-- The addresses that come back: each non-null address converted to the vendor shape and
back. -/
def roundAddresses (l : List (Option ContactAddress)) : List (Option ContactAddress) :=
  (l.filterMap id).map (fun a => ContactAddress.fromBlackBerryAddress (some a.toBlackBerryAddress))

/-- The organizations that come back: name and title (or "") of a non-null organization that
has one of them. -/
def roundOrganizations (l : List (Option ContactOrganization)) :
    List (Option ContactOrganization) :=
  ((l.filterMap id).filter (fun o => truthy o.name || truthy o.title)).map
    (fun o => some { name := some (orEmpty o.name), title := some (orEmpty o.title) })

/-- The birthday or anniversary that comes back: the `Date` object the value was stored as. -/
def roundDate (host : Host) (v : Option DateValue) : Option DateValue :=
  if dateTruthy v then v.map (fun x => DateValue.date (toJSDate host x)) else none

/-- A contact within the bounds of the lossless subset. -/
def bobSmith : Contact :=
  { id := none
    displayName := some "Bob Smith"
    name := some { formatted := some "Bob Smith", familyName := some "Smith",
                   givenName := some "Bob" }
    phoneNumbers := some [some { type := some "home", value := some "555-1234" }]
    emails := some [some { type := none, value := some "bob@example.org" }]
    addresses := some [some sampleAddress]
    organizations := some [some { name := some "Acme", title := some "Engineer" }]
    birthday := some (DateValue.date { time := some 0 })
    anniversary := none
    note := some "friend"
    urls := some [some { type := none, value := some "http://example.org" }] }

/-- The Position the spec builds from a raw fix: coords from latitude, longitude, altitude,
accuracy, heading, speed and alt_accuracy, timestamp from timestamp. -/
def positionOf (p : RawFix) : Position :=
  { coords := { latitude := p.latitude, longitude := p.longitude, altitude := p.altitude,
                accuracy := p.accuracy, heading := p.heading, speed := p.speed,
                altitudeAccuracy := p.alt_accuracy }
    timestamp := p.timestamp }

/-- The request `Cordova.exec(null, null, "Geolocation", "stop", [id])`. -/
def stopRequest (id : String) : ExecCall :=
  { success := none, fail := none, service := "Geolocation", action := "stop",
    args := [.str id] }

/-- A callback that throws. -/
def throwingCallback (n : Nat) : Callback :=
  { id := n, throws := true }

/-- A state with one outstanding one-shot request and one watch, all of whose callbacks
throw. -/
def throwingState : Geolocation :=
  { Geolocation.new with
    listeners := [("global", { success := some (throwingCallback 1),
                               fail := some (throwingCallback 2) }),
                  ("w1", { success := some (throwingCallback 3),
                           fail := some (throwingCallback 4) })] }

/-- A raw fix. -/
def sampleFix : RawFix :=
  { latitude := some 45, longitude := some (-75), altitude := none, accuracy := some 10,
    heading := none, speed := none, alt_accuracy := none, timestamp := some 1000 }

/-- The eight phone slots of a vendor record with the type read back for each, in the fixed
order home, home2, work, work2, mobile, fax, pager, other. -/
def phoneSlots (bb : BBContact) : List (String × Option String) :=
  [("home", bb.homePhone), ("home", bb.homePhone2), ("work", bb.workPhone),
   ("work", bb.workPhone2), ("mobile", bb.mobilePhone), ("fax", bb.faxPhone),
   ("pager", bb.pagerPhone), ("other", bb.otherPhone)]

/-- The six segments joined into the formatted text of an address, absent ones as "". -/
def addressSegments (b : BBAddress) : List String :=
  [orEmpty b.address1, orEmpty b.address2, orEmpty b.city, orEmpty b.stateProvince,
   orEmpty b.zipPostal, orEmpty b.country]

/-- The number of commas in a string. -/
def commas (s : String) : Nat :=
  s.toList.count ','

/-- The invariant of the vendor record: none of the text slots firstName, lastName, title,
note, email1..3, the eight phone slots, webpage, company and jobTitle is null. -/
def noNullText (bb : BBContact) : Prop :=
  bb.firstName.isSome ∧ bb.lastName.isSome ∧ bb.title.isSome ∧ bb.note.isSome
    ∧ bb.email1.isSome ∧ bb.email2.isSome ∧ bb.email3.isSome
    ∧ bb.homePhone.isSome ∧ bb.homePhone2.isSome ∧ bb.workPhone.isSome ∧ bb.workPhone2.isSome
    ∧ bb.mobilePhone.isSome ∧ bb.faxPhone.isSome ∧ bb.pagerPhone.isSome ∧ bb.otherPhone.isSome
    ∧ bb.webpage.isSome ∧ bb.company.isSome ∧ bb.jobTitle.isSome

instance (bb : BBContact) : Decidable (noNullText bb) := by
  unfold noNullText
  infer_instance

/-- A host whose store holds the given records and answers the query `uid == v` with the
records of that uid (any other query with nothing). -/
def storeHost (records : List BBContact) : Host :=
  { asciiHost with
    find := fun q =>
      match q with
      | FilterExpression.leaf "uid" "==" v => records.filter (fun r => decide (r.uid = some v))
      | _ => [] }

/-- A stored record with a name, a phone number and a home address. -/
def storedBob : BBContact :=
  { newBBContact with
    uid := some "7", firstName := some "Bob", lastName := some "Smith"
    homePhone := some "555-1234"
    homeAddress := some sampleAddress.toBlackBerryAddress }

/-- An update of the stored record "7" by a contact that has no name and a null note. -/
def namelessUpdate : Contact :=
  { emptyContact with id := some "7", displayName := some "Bobby" }

/-- The contact `c` with only its first two non-null addresses kept. -/
def firstTwoAddresses (c : Contact) : Contact :=
  { c with addresses := some ((((arrayOf c.addresses).filterMap id).take 2).map some) }

/-- A contact with three addresses after a null entry. -/
def threeAddresses : Contact :=
  { emptyContact with
    addresses := some [none, some sampleAddress,
                       some { sampleAddress with streetAddress := some "2 Side St" },
                       some { sampleAddress with streetAddress := some "3 Back St" }] }

/-- None of the eight phone slots of a record is null. -/
def phonesNonNull (bb : BBContact) : Prop :=
  bb.homePhone.isSome ∧ bb.homePhone2.isSome ∧ bb.workPhone.isSome ∧ bb.workPhone2.isSome
    ∧ bb.mobilePhone.isSome ∧ bb.faxPhone.isSome ∧ bb.pagerPhone.isSome ∧ bb.otherPhone.isSome

/-- The vendor fields the table lists for one mapping entry. -/
def listedFields (m : BBFields) : List String :=
  match m with
  | .array l => l
  | .single s => [s]

/-- The vendor fields of one requested name: those the table lists for it, none for a name
that is empty, null or absent from the table. -/
def vendorFieldsOfName (name : Option String) : List String :=
  if truthy name then
    match fieldMappings (name.getD "") with
    | some m => listedFields m
    | none => []
  else []

/-- The concatenation, in request order and table order, of the vendor fields of the requested
names. -/
def vendorFieldsOf (fields : List (Option String)) : List String :=
  (fields.map vendorFieldsOfName).flatten

/-- The left-nested OR fold ((p1 OR p2) OR p3) ... of a list of predicates; no expression for
the empty list. -/
def orFold (preds : List FilterExpression) : Option FilterExpression :=
  match preds with
  | [] => none
  | p :: ps => some (ps.foldl (fun acc q => FilterExpression.comb acc "OR" q) p)

/-- The pattern of the spec for the filter text `t`: ".*", the character class of each
character of `t` in order, ".*". -/
def patternOf (host : Host) (t : String) : String :=
  ".*" ++ String.join (t.toList.map (charClass host)) ++ ".*"

/-- A requested name is skipped by the builder: it is null or empty, or absent from the
mapping table. -/
def skippedName (name : Option String) : Prop :=
  truthy name = false ∨ fieldMappings (name.getD "") = none

/-- The mapped entry of a requested name is list-valued: the table does not map the name to a
single string. -/
def listValued (name : Option String) : Bool :=
  match fieldMappings (name.getD "") with
  | some (BBFields.single _) => false
  | _ => true

/-- An update of the stored record "7" with new emails, phone numbers, urls and
organizations. -/
def fullUpdate : Contact :=
  { emptyContact with
    id := some "7"
    emails := some [some { type := none, value := some "new@x.org" }]
    phoneNumbers := some [some { type := some "home", value := some "999" },
                          some { type := some "mobile", value := some "888" }]
    urls := some [some { type := none, value := some "http://new.example" }]
    organizations := some [some { name := some "NewCo", title := some "Boss" }] }

/-- A state with one watch and no outstanding one-shot request. -/
def watchingState : Geolocation :=
  { Geolocation.new with
    listeners := [("w1", { success := some (okCallback 5), fail := some (okCallback 6) })] }

/-- Every phone slot of `a` that is not the empty string has the same value in `b`. -/
def keepsPhones (a b : BBContact) : Prop :=
  (a.homePhone ≠ some "" → b.homePhone = a.homePhone)
    ∧ (a.homePhone2 ≠ some "" → b.homePhone2 = a.homePhone2)
    ∧ (a.workPhone ≠ some "" → b.workPhone = a.workPhone)
    ∧ (a.workPhone2 ≠ some "" → b.workPhone2 = a.workPhone2)
    ∧ (a.mobilePhone ≠ some "" → b.mobilePhone = a.mobilePhone)
    ∧ (a.faxPhone ≠ some "" → b.faxPhone = a.faxPhone)
    ∧ (a.pagerPhone ≠ some "" → b.pagerPhone = a.pagerPhone)
    ∧ (a.otherPhone ≠ some "" → b.otherPhone = a.otherPhone)

/-- A request that mixes mapped names with an empty, a null and an unmapped name. -/
def mixedRequest : List (Option String) :=
  [some "name", some "", some "nickname", none, some "emails"]

/-! ## Basic facts about the helpers -/

theorem truthy_some (s : String) : truthy (some s) = true ↔ s ≠ "" := by
  simp [truthy]

theorem orEmpty_some (s : String) : orEmpty (some s) = s := by
  unfold orEmpty truthy
  by_cases h : s = "" <;> simp [h]

theorem orEmpty_none : orEmpty none = "" := by
  simp [orEmpty, truthy]

theorem orEmpty_of_truthy {v : Option String} (h : truthy v = true) : some (orEmpty v) = v := by
  cases v with
  | none => simp [truthy] at h
  | some s => simp [orEmpty_some]

theorem string_join_cons (x : String) (xs : List String) :
    String.join (x :: xs) = x ++ String.join xs := by
  apply String.ext
  simp [String.join_eq]

theorem ciFilter_foldl (host : Host) (l : List Char) (acc : String) :
    l.foldl (fun a c => a ++ "[" ++ host.toLowerCase c ++ host.toUpperCase c ++ "]") acc
      = acc ++ String.join (l.map (charClass host)) := by
  induction l generalizing acc with
  | nil => simp [String.join]
  | cons c cs ih =>
    simp only [List.foldl_cons, List.map_cons]
    rw [ih, string_join_cons]
    simp [charClass, String.append_assoc]

theorem ciFilter_eq (host : Host) (t : String) :
    ciFilter host t = String.join (t.toList.map (charClass host)) := by
  unfold ciFilter
  rw [ciFilter_foldl]
  simp

/-! ## The loops of `saveToDevice` only read and write their own slots -/

theorem emailStep_sim (a b : BBContact) (e : Option ContactField)
    (h1 : a.email1 = b.email1) (h2 : a.email2 = b.email2) (h3 : a.email3 = b.email3) :
    emailStep a e = { a with email1 := (emailStep b e).email1, email2 := (emailStep b e).email2,
                             email3 := (emailStep b e).email3 } := by
  cases a
  cases b
  simp only at h1 h2 h3
  subst h1 h2 h3
  cases e with
  | none => rfl
  | some f =>
    simp only [emailStep]
    split_ifs <;> rfl

theorem emailLoop_sim (l : List (Option ContactField)) (a b : BBContact)
    (h1 : a.email1 = b.email1) (h2 : a.email2 = b.email2) (h3 : a.email3 = b.email3) :
    l.foldl emailStep a = { a with email1 := (l.foldl emailStep b).email1,
                                   email2 := (l.foldl emailStep b).email2,
                                   email3 := (l.foldl emailStep b).email3 } := by
  induction l generalizing a b with
  | nil =>
    cases a
    cases b
    simp only at h1 h2 h3
    subst h1 h2 h3
    rfl
  | cons e es ih =>
    simp only [List.foldl_cons]
    have hs := emailStep_sim a b e h1 h2 h3
    rw [ih (emailStep a e) (emailStep b e) (by rw [hs]) (by rw [hs]) (by rw [hs])]
    rw [hs]

theorem samePhones_withPhonesOf (a r : BBContact) : samePhones (withPhonesOf a r) r := by
  simp [samePhones, withPhonesOf]

theorem withPhonesOf_withPhonesOf (a r r2 : BBContact) :
    withPhonesOf (withPhonesOf a r) r2 = withPhonesOf a r2 := by
  simp [withPhonesOf]

theorem phoneStep_sim (a b : BBContact) (e : Option ContactField) (h : samePhones a b) :
    phoneStep a e = withPhonesOf a (phoneStep b e) := by
  obtain ⟨h1, h2, h3, h4, h5, h6, h7, h8⟩ := h
  cases a
  cases b
  simp only at h1 h2 h3 h4 h5 h6 h7 h8
  subst h1 h2 h3 h4 h5 h6 h7 h8
  cases e with
  | none => rfl
  | some f =>
    simp only [phoneStep, withPhonesOf]
    split_ifs <;> rfl

theorem phoneLoop_sim (l : List (Option ContactField)) (a b : BBContact) (h : samePhones a b) :
    l.foldl phoneStep a = withPhonesOf a (l.foldl phoneStep b) := by
  induction l generalizing a b with
  | nil =>
    obtain ⟨h1, h2, h3, h4, h5, h6, h7, h8⟩ := h
    cases a
    cases b
    simp only at h1 h2 h3 h4 h5 h6 h7 h8
    subst h1 h2 h3 h4 h5 h6 h7 h8
    rfl
  | cons e es ih =>
    simp only [List.foldl_cons]
    have hs := phoneStep_sim a b e h
    have h2 : samePhones (phoneStep a e) (phoneStep b e) := by
      rw [hs]
      exact samePhones_withPhonesOf _ _
    rw [ih (phoneStep a e) (phoneStep b e) h2, hs, withPhonesOf_withPhonesOf]

theorem addressStep_sim (s t : AddressLoop) (e : Option ContactAddress)
    (hh : s.bbHomeAddress = t.bbHomeAddress) (hw : s.bbWorkAddress = t.bbWorkAddress)
    (h1 : s.bbContact.homeAddress = t.bbContact.homeAddress)
    (h2 : s.bbContact.workAddress = t.bbContact.workAddress) :
    addressStep s e =
      { bbContact := { s.bbContact with
                       homeAddress := (addressStep t e).bbContact.homeAddress
                       workAddress := (addressStep t e).bbContact.workAddress }
        bbHomeAddress := (addressStep t e).bbHomeAddress
        bbWorkAddress := (addressStep t e).bbWorkAddress } := by
  obtain ⟨sb, sh, sw⟩ := s
  obtain ⟨tb, th, tw⟩ := t
  cases sb
  cases tb
  simp only at hh hw h1 h2
  subst hh hw h1 h2
  cases e with
  | none => rfl
  | some f =>
    simp only [addressStep]
    split_ifs <;> rfl

theorem addressFold_sim (l : List (Option ContactAddress)) (s t : AddressLoop)
    (hh : s.bbHomeAddress = t.bbHomeAddress) (hw : s.bbWorkAddress = t.bbWorkAddress)
    (h1 : s.bbContact.homeAddress = t.bbContact.homeAddress)
    (h2 : s.bbContact.workAddress = t.bbContact.workAddress) :
    l.foldl addressStep s =
      { bbContact := { s.bbContact with
                       homeAddress := (l.foldl addressStep t).bbContact.homeAddress
                       workAddress := (l.foldl addressStep t).bbContact.workAddress }
        bbHomeAddress := (l.foldl addressStep t).bbHomeAddress
        bbWorkAddress := (l.foldl addressStep t).bbWorkAddress } := by
  induction l generalizing s t with
  | nil =>
    obtain ⟨sb, sh, sw⟩ := s
    obtain ⟨tb, th, tw⟩ := t
    cases sb
    cases tb
    simp only at hh hw h1 h2
    subst hh hw h1 h2
    rfl
  | cons e es ih =>
    simp only [List.foldl_cons]
    have hs := addressStep_sim s t e hh hw h1 h2
    rw [ih (addressStep s e) (addressStep t e) (by rw [hs]) (by rw [hs]) (by rw [hs])
      (by rw [hs]), hs]

theorem addressLoop_sim (l : List (Option ContactAddress)) (a b : BBContact)
    (h1 : a.homeAddress = b.homeAddress) (h2 : a.workAddress = b.workAddress) :
    addressLoop a l = { a with homeAddress := (addressLoop b l).homeAddress
                               workAddress := (addressLoop b l).workAddress } := by
  unfold addressLoop
  rw [addressFold_sim l { bbContact := a, bbHomeAddress := none, bbWorkAddress := none }
    { bbContact := b, bbHomeAddress := none, bbWorkAddress := none } rfl rfl h1 h2]

theorem urlLoop_sim (l : List (Option ContactField)) (a b : BBContact)
    (h : a.webpage = b.webpage) :
    urlLoop a l = { a with webpage := (urlLoop b l).webpage } := by
  cases a
  cases b
  simp only at h
  subst h
  induction l with
  | nil => rfl
  | cons u us ih =>
    cases u with
    | none => simpa only [urlLoop] using ih
    | some f =>
      simp only [urlLoop]
      split_ifs
      · exact ih
      · rfl
      · exact ih

theorem orgLoop_sim (l : List (Option ContactOrganization)) (a b : BBContact)
    (h1 : a.company = b.company) (h2 : a.jobTitle = b.jobTitle) :
    orgLoop a l = { a with company := (orgLoop b l).company
                           jobTitle := (orgLoop b l).jobTitle } := by
  cases a
  cases b
  simp only at h1 h2
  subst h1 h2
  induction l with
  | nil => rfl
  | cons u us ih =>
    cases u with
    | none => simpa only [orgLoop] using ih
    | some f =>
      simp only [orgLoop]
      split_ifs
      · rfl
      · exact ih

/-! ## The written record, slot by slot -/

theorem loops_sim (es ps us : List (Option ContactField)) (as : List (Option ContactAddress))
    (os : List (Option ContactOrganization)) (a b : BBContact)
    (he1 : a.email1 = b.email1) (he2 : a.email2 = b.email2) (he3 : a.email3 = b.email3)
    (hp : samePhones a b)
    (ha1 : a.homeAddress = b.homeAddress) (ha2 : a.workAddress = b.workAddress)
    (hu : a.webpage = b.webpage)
    (ho1 : a.company = b.company) (ho2 : a.jobTitle = b.jobTitle) :
    orgLoop (urlLoop (addressLoop (ps.foldl phoneStep (es.foldl emailStep a)) as) us) os =
      { a with
        email1 := (es.foldl emailStep b).email1
        email2 := (es.foldl emailStep b).email2
        email3 := (es.foldl emailStep b).email3
        homePhone := (ps.foldl phoneStep b).homePhone
        homePhone2 := (ps.foldl phoneStep b).homePhone2
        workPhone := (ps.foldl phoneStep b).workPhone
        workPhone2 := (ps.foldl phoneStep b).workPhone2
        mobilePhone := (ps.foldl phoneStep b).mobilePhone
        faxPhone := (ps.foldl phoneStep b).faxPhone
        pagerPhone := (ps.foldl phoneStep b).pagerPhone
        otherPhone := (ps.foldl phoneStep b).otherPhone
        homeAddress := (addressLoop b as).homeAddress
        workAddress := (addressLoop b as).workAddress
        webpage := (urlLoop b us).webpage
        company := (orgLoop b os).company
        jobTitle := (orgLoop b os).jobTitle } := by
  have h1 := emailLoop_sim es a b he1 he2 he3
  have h2 := phoneLoop_sim ps (es.foldl emailStep a) b (by rw [h1]; exact hp)
  have h3 := addressLoop_sim as (ps.foldl phoneStep (es.foldl emailStep a)) b
    (by rw [h2, h1]; exact ha1) (by rw [h2, h1]; exact ha2)
  have h4 := urlLoop_sim us (addressLoop (ps.foldl phoneStep (es.foldl emailStep a)) as) b
    (by rw [h3, h2, h1]; exact hu)
  have h5 := orgLoop_sim os
    (urlLoop (addressLoop (ps.foldl phoneStep (es.foldl emailStep a)) as) us) b
    (by rw [h4, h3, h2, h1]; exact ho1) (by rw [h4, h3, h2, h1]; exact ho2)
  rw [h5, h4, h3, h2, h1]
  rfl

/-- Every slot of the record written by `copyToBlackBerry` is computed from the contact and
from the same slot group of the starting record only. -/
theorem copyToBlackBerry_eq (host : Host) (c : Contact) (bb : BBContact) :
    copyToBlackBerry host c bb =
      { uid := bb.uid
        firstName := (match c.name with
          | some n => some (orEmpty n.givenName)
          | none => bb.firstName)
        lastName := (match c.name with
          | some n => some (orEmpty n.familyName)
          | none => bb.lastName)
        title := some (orEmpty c.displayName)
        note := some (orEmpty c.note)
        birthday := if dateTruthy c.birthday then c.birthday.map (toJSDate host) else bb.birthday
        anniversary :=
          if dateTruthy c.anniversary then c.anniversary.map (toJSDate host) else bb.anniversary
        email1 := ((arrayOf c.emails).foldl emailStep bb).email1
        email2 := ((arrayOf c.emails).foldl emailStep bb).email2
        email3 := ((arrayOf c.emails).foldl emailStep bb).email3
        homePhone := ((arrayOf c.phoneNumbers).foldl phoneStep bb).homePhone
        homePhone2 := ((arrayOf c.phoneNumbers).foldl phoneStep bb).homePhone2
        workPhone := ((arrayOf c.phoneNumbers).foldl phoneStep bb).workPhone
        workPhone2 := ((arrayOf c.phoneNumbers).foldl phoneStep bb).workPhone2
        mobilePhone := ((arrayOf c.phoneNumbers).foldl phoneStep bb).mobilePhone
        faxPhone := ((arrayOf c.phoneNumbers).foldl phoneStep bb).faxPhone
        pagerPhone := ((arrayOf c.phoneNumbers).foldl phoneStep bb).pagerPhone
        otherPhone := ((arrayOf c.phoneNumbers).foldl phoneStep bb).otherPhone
        homeAddress := (addressLoop bb (arrayOf c.addresses)).homeAddress
        workAddress := (addressLoop bb (arrayOf c.addresses)).workAddress
        webpage := (urlLoop bb (arrayOf c.urls)).webpage
        company := (orgLoop bb (arrayOf c.organizations)).company
        jobTitle := (orgLoop bb (arrayOf c.organizations)).jobTitle } := by
  unfold copyToBlackBerry
  cases hn : c.name <;> cases hb : dateTruthy c.birthday <;>
    cases ha : dateTruthy c.anniversary <;>
    simp only [↓reduceIte, Bool.false_eq_true] <;>
    refine (loops_sim _ _ _ _ _ _ bb ?_ ?_ ?_ ?_ ?_ ?_ ?_ ?_ ?_).trans ?_ <;>
    first
      | rfl
      | exact ⟨rfl, rfl, rfl, rfl, rfl, rfl, rfl, rfl⟩
/-! ## Emails written to a blank record -/

theorem entryValue_ne_empty {e : Option ContactField} {v : String}
    (h : entryValue e = some v) : v ≠ "" := by
  cases e with
  | none => simp [entryValue] at h
  | some f =>
    simp only [entryValue] at h
    split_ifs at h with ht
    rw [h] at ht
    exact (truthy_some v).1 ht

theorem nonEmptyValues_ne_empty {l : List (Option ContactField)} {v : String}
    (h : v ∈ nonEmptyValues l) : v ≠ "" := by
  simp only [nonEmptyValues, List.mem_filterMap] at h
  obtain ⟨e, _, he⟩ := h
  exact entryValue_ne_empty he

theorem nonEmptyValues_append (l : List (Option ContactField)) (e : Option ContactField) :
    nonEmptyValues (l ++ [e]) = nonEmptyValues l ++ (entryValue e).toList := by
  simp only [nonEmptyValues, List.filterMap_append]
  cases h : entryValue e <;> simp [List.filterMap, h]

theorem emailStep_of_empty {bb : BBContact} {e : Option ContactField}
    (h : entryValue e = none) : emailStep bb e = bb := by
  cases e with
  | none => rfl
  | some f =>
    simp only [entryValue] at h
    split_ifs at h with ht
    · simp [emailStep, ht] at h ⊢
      cases hv : f.value <;> simp_all [truthy]
    · simp [emailStep, ht]

theorem emailStep_of_value {bb : BBContact} {e : Option ContactField} {v : String}
    (h : entryValue e = some v) :
    emailStep bb e =
      if bb.email1 = some "" then { bb with email1 := some v }
      else if bb.email2 = some "" then { bb with email2 := some v }
      else if bb.email3 = some "" then { bb with email3 := some v }
      else bb := by
  cases e with
  | none => simp [entryValue] at h
  | some f =>
    simp only [entryValue] at h
    split_ifs at h with ht
    have ht2 : truthy (some v) = true := h ▸ ht
    simp [emailStep, h, ht2]

/-- The email slots of a blank record after the email loop: the first three non-empty values,
in order. -/
theorem emailLoop_blank (l : List (Option ContactField)) :
    (l.foldl emailStep newBBContact).email1 = some ((nonEmptyValues l).getD 0 "")
      ∧ (l.foldl emailStep newBBContact).email2 = some ((nonEmptyValues l).getD 1 "")
      ∧ (l.foldl emailStep newBBContact).email3 = some ((nonEmptyValues l).getD 2 "") := by
  induction l using List.reverseRecOn with
  | nil => exact ⟨rfl, rfl, rfl⟩
  | append_singleton l e ih =>
    obtain ⟨h1, h2, h3⟩ := ih
    rw [List.foldl_append, nonEmptyValues_append]
    simp only [List.foldl_cons, List.foldl_nil]
    cases he : entryValue e with
    | none =>
      rw [emailStep_of_empty he]
      simp [h1, h2, h3]
    | some v =>
      have hv : v ≠ "" := entryValue_ne_empty he
      rw [emailStep_of_value he, h1, h2, h3]
      have hne : ∀ x ∈ nonEmptyValues l, x ≠ "" := fun x hx => nonEmptyValues_ne_empty hx
      rcases hV : nonEmptyValues l with _ | ⟨a, _ | ⟨b, _ | ⟨c, rest⟩⟩⟩
      · simp [h1, h2, h3, hV]
      · have ha : a ≠ "" := hne a (by simp [hV])
        simp [h1, h2, h3, hV, ha]
      · have ha : a ≠ "" := hne a (by simp [hV])
        have hb : b ≠ "" := hne b (by simp [hV])
        simp [h1, h2, h3, hV, ha, hb]
      · have ha : a ≠ "" := hne a (by simp [hV])
        have hb : b ≠ "" := hne b (by simp [hV])
        have hc : c ≠ "" := hne c (by simp [hV])
        simp [h1, h2, h3, hV, ha, hb, hc]

theorem nonEmptyValues_take_filter (l : List (Option ContactField)) (n : Nat) :
    nonEmptyValues ((l.filter (fun e => (entryValue e).isSome)).take n)
      = (nonEmptyValues l).take n := by
  induction l generalizing n with
  | nil => simp [nonEmptyValues]
  | cons e es ih =>
    cases he : entryValue e with
    | none =>
      have := ih n
      simp only [nonEmptyValues] at this ⊢
      simp [List.filter_cons, List.filterMap_cons, he, this]
    | some v =>
      cases n with
      | zero => simp [nonEmptyValues]
      | succ k =>
        have := ih k
        simp only [nonEmptyValues] at this ⊢
        simp [List.filter_cons, List.filterMap_cons, he, this]

theorem getD_take_of_lt (l : List String) (i n : Nat) (h : i < n) :
    (l.take n).getD i "" = l.getD i "" := by
  simp [List.getD_eq_getElem?_getD, List.getElem?_take, h]

theorem getD_ne_empty_of_lt {l : List String} (hne : ∀ x ∈ l, x ≠ "") {i : Nat}
    (h : i < l.length) : l.getD i "" ≠ "" := by
  rw [List.getD_eq_getElem _ _ h]
  exact hne _ (List.getElem_mem h)
/-! ## Phone numbers written to a blank record -/

theorem valuesWhere_append (p : Option String → Bool) (l : List (Option ContactField))
    (e : Option ContactField) :
    valuesWhere p (l ++ [e])
      = valuesWhere p l ++ (if p (e.bind ContactField.type) then (entryValue e).toList else []) := by
  unfold valuesWhere
  by_cases h : p (e.bind ContactField.type) = true
  · simp only [List.filter_append, h, List.filter_cons, List.filter_nil, if_true]
    exact nonEmptyValues_append _ _
  · simp [List.filter_append, h, List.filter_cons]

theorem valuesWhere_ne_empty {p : Option String → Bool} {l : List (Option ContactField)}
    {v : String} (h : v ∈ valuesWhere p l) : v ≠ "" :=
  nonEmptyValues_ne_empty h

theorem entryValue_some {e : Option ContactField} {v : String} (h : entryValue e = some v) :
    ∃ f, e = some f ∧ f.value = some v ∧ truthy (some v) = true := by
  cases e with
  | none => simp [entryValue] at h
  | some f =>
    simp only [entryValue] at h
    split_ifs at h with ht
    exact ⟨f, rfl, h, h ▸ ht⟩

theorem phoneStep_of_empty {bb : BBContact} {e : Option ContactField}
    (h : entryValue e = none) : phoneStep bb e = bb := by
  cases e with
  | none => rfl
  | some f =>
    simp only [entryValue] at h
    split_ifs at h with ht
    · cases hv : f.value <;> simp_all [truthy]
    · simp [phoneStep, ht]

theorem phoneStep_of_value (bb : BBContact) (f : ContactField) {v : String}
    (hv : f.value = some v) (ht : truthy (some v) = true) :
    phoneStep bb (some f) =
      if f.type = some "home" then
        if bb.homePhone = some "" then { bb with homePhone := some v }
        else if bb.homePhone2 = some "" then { bb with homePhone2 := some v }
        else bb
      else if f.type = some "work" then
        if bb.workPhone = some "" then { bb with workPhone := some v }
        else if bb.workPhone2 = some "" then { bb with workPhone2 := some v }
        else bb
      else if f.type = some "mobile" ∧ bb.mobilePhone = some "" then
        { bb with mobilePhone := some v }
      else if f.type = some "fax" ∧ bb.faxPhone = some "" then
        { bb with faxPhone := some v }
      else if f.type = some "pager" ∧ bb.pagerPhone = some "" then
        { bb with pagerPhone := some v }
      else if bb.otherPhone = some "" then
        { bb with otherPhone := some v }
      else bb := by
  simp [phoneStep, hv, ht]

theorem valuesWhere_append_empty (p : Option String → Bool) (l : List (Option ContactField))
    {e : Option ContactField} (h : entryValue e = none) :
    valuesWhere p (l ++ [e]) = valuesWhere p l := by
  rw [valuesWhere_append, h]
  simp

theorem valuesWhere_append_pos (p : Option String → Bool) (l : List (Option ContactField))
    (f : ContactField) {v : String} (he : entryValue (some f) = some v)
    (h : p f.type = true) :
    valuesWhere p (l ++ [some f]) = valuesWhere p l ++ [v] := by
  rw [valuesWhere_append, he]
  simp [h]

theorem valuesWhere_append_neg (p : Option String → Bool) (l : List (Option ContactField))
    (f : ContactField) (h : p f.type = false) :
    valuesWhere p (l ++ [some f]) = valuesWhere p l := by
  rw [valuesWhere_append]
  simp [h]

theorem getD_append_singleton (l : List String) (v : String) (hne : ∀ x ∈ l, x ≠ "") :
    (l.getD 0 "" = "" → (l ++ [v]).getD 0 "" = v ∧ (l ++ [v]).getD 1 "" = "")
      ∧ (l.getD 0 "" ≠ "" → (l ++ [v]).getD 0 "" = l.getD 0 "")
      ∧ (l.getD 0 "" ≠ "" → l.getD 1 "" = "" → (l ++ [v]).getD 1 "" = v)
      ∧ (l.getD 1 "" ≠ "" → (l ++ [v]).getD 1 "" = l.getD 1 "")
      ∧ (l.getD 0 "" = "" → l.getD 1 "" = "") := by
  rcases l with _ | ⟨a, _ | ⟨b, rest⟩⟩
  · simp
  · have ha : a ≠ "" := hne a (by simp)
    simp [ha]
  · have ha : a ≠ "" := hne a (by simp)
    have hb : b ≠ "" := hne b (by simp)
    simp [ha, hb]

/-- The home slots of a blank record after the phone loop: the first two non-empty "home"
values, in order. -/
theorem homeLoop_blank (l : List (Option ContactField)) :
    (l.foldl phoneStep newBBContact).homePhone = some ((valuesOfType "home" l).getD 0 "")
      ∧ (l.foldl phoneStep newBBContact).homePhone2
          = some ((valuesOfType "home" l).getD 1 "") := by
  induction l using List.reverseRecOn with
  | nil => exact ⟨rfl, rfl⟩
  | append_singleton l e ih =>
    obtain ⟨h1, h2⟩ := ih
    rw [List.foldl_append]
    simp only [List.foldl_cons, List.foldl_nil]
    cases he : entryValue e with
    | none =>
      rw [phoneStep_of_empty he]
      unfold valuesOfType at h1 h2 ⊢
      rw [valuesWhere_append_empty _ _ he]
      exact ⟨h1, h2⟩
    | some v =>
      obtain ⟨f, rfl, hv, ht⟩ := entryValue_some he
      rw [phoneStep_of_value _ f hv ht]
      by_cases hty : f.type = some "home"
      · have hV : valuesOfType "home" (l ++ [some f]) = valuesOfType "home" l ++ [v] :=
          valuesWhere_append_pos _ l f he (by simp [hty])
        obtain ⟨k1, k2, k3, k4, k5⟩ := getD_append_singleton (valuesOfType "home" l) v
          (fun x hx => valuesWhere_ne_empty hx)
        rw [hV, h1, h2]
        simp only [hty, if_true, Option.some.injEq]
        generalize (valuesOfType "home" l ++ [v]).getD 0 "" = n0 at *
        generalize (valuesOfType "home" l ++ [v]).getD 1 "" = n1 at *
        generalize (valuesOfType "home" l).getD 0 "" = g0 at *
        generalize (valuesOfType "home" l).getD 1 "" = g1 at *
        by_cases e0 : g0 = ""
        · obtain ⟨r1, r2⟩ := k1 e0
          simp [e0, r1, r2, k5 e0]
        · by_cases e1 : g1 = ""
          · simp [e0, e1, k2 e0, k3 e0 e1]
          · simp [e0, e1, k2 e0, k4 e1, h1, h2]
      · have hV : valuesOfType "home" (l ++ [some f]) = valuesOfType "home" l :=
          valuesWhere_append_neg _ l f (by simp [hty])
        rw [hV]
        simp only [hty, if_false]
        split_ifs <;> exact ⟨h1, h2⟩

/-- The work slots of a blank record after the phone loop: the first two non-empty "work"
values, in order. -/
theorem workLoop_blank (l : List (Option ContactField)) :
    (l.foldl phoneStep newBBContact).workPhone = some ((valuesOfType "work" l).getD 0 "")
      ∧ (l.foldl phoneStep newBBContact).workPhone2
          = some ((valuesOfType "work" l).getD 1 "") := by
  induction l using List.reverseRecOn with
  | nil => exact ⟨rfl, rfl⟩
  | append_singleton l e ih =>
    obtain ⟨h1, h2⟩ := ih
    rw [List.foldl_append]
    simp only [List.foldl_cons, List.foldl_nil]
    cases he : entryValue e with
    | none =>
      rw [phoneStep_of_empty he]
      unfold valuesOfType at h1 h2 ⊢
      rw [valuesWhere_append_empty _ _ he]
      exact ⟨h1, h2⟩
    | some v =>
      obtain ⟨f, rfl, hv, ht⟩ := entryValue_some he
      rw [phoneStep_of_value _ f hv ht]
      by_cases hty : f.type = some "work"
      · have hV : valuesOfType "work" (l ++ [some f]) = valuesOfType "work" l ++ [v] :=
          valuesWhere_append_pos _ l f he (by simp [hty])
        obtain ⟨k1, k2, k3, k4, k5⟩ := getD_append_singleton (valuesOfType "work" l) v
          (fun x hx => valuesWhere_ne_empty hx)
        have hnh : ¬ (some "work" = some "home") := by decide
        rw [hV, h1, h2]
        simp only [hty, hnh, if_true, if_false, Option.some.injEq]
        generalize (valuesOfType "work" l ++ [v]).getD 0 "" = n0 at *
        generalize (valuesOfType "work" l ++ [v]).getD 1 "" = n1 at *
        generalize (valuesOfType "work" l).getD 0 "" = g0 at *
        generalize (valuesOfType "work" l).getD 1 "" = g1 at *
        by_cases e0 : g0 = ""
        · obtain ⟨r1, r2⟩ := k1 e0
          simp [e0, r1, r2, k5 e0]
        · by_cases e1 : g1 = ""
          · simp [e0, e1, k2 e0, k3 e0 e1]
          · simp [e0, e1, k2 e0, k4 e1, h1, h2]
      · have hV : valuesOfType "work" (l ++ [some f]) = valuesOfType "work" l :=
          valuesWhere_append_neg _ l f (by simp [hty])
        rw [hV]
        simp only [hty, if_false]
        split_ifs <;> exact ⟨h1, h2⟩

/-- The mobile, fax and pager slots of a blank record after the phone loop: the first
non-empty value of that type. -/
theorem singleLoop_blank (l : List (Option ContactField)) :
    (l.foldl phoneStep newBBContact).mobilePhone = some ((valuesOfType "mobile" l).getD 0 "")
      ∧ (l.foldl phoneStep newBBContact).faxPhone = some ((valuesOfType "fax" l).getD 0 "")
      ∧ (l.foldl phoneStep newBBContact).pagerPhone
          = some ((valuesOfType "pager" l).getD 0 "") := by
  induction l using List.reverseRecOn with
  | nil => exact ⟨rfl, rfl, rfl⟩
  | append_singleton l e ih =>
    obtain ⟨h1, h2, h3⟩ := ih
    rw [List.foldl_append]
    simp only [List.foldl_cons, List.foldl_nil]
    cases he : entryValue e with
    | none =>
      rw [phoneStep_of_empty he]
      unfold valuesOfType at h1 h2 h3 ⊢
      rw [valuesWhere_append_empty _ _ he, valuesWhere_append_empty _ _ he,
        valuesWhere_append_empty _ _ he]
      exact ⟨h1, h2, h3⟩
    | some v =>
      obtain ⟨f, rfl, hv, ht⟩ := entryValue_some he
      rw [phoneStep_of_value _ f hv ht]
      have key : ∀ t : String,
          (f.type = some t → valuesOfType t (l ++ [some f]) = valuesOfType t l ++ [v])
          ∧ (f.type ≠ some t → valuesOfType t (l ++ [some f]) = valuesOfType t l) :=
        fun t => ⟨fun h => valuesWhere_append_pos _ l f he (by simp [h]),
          fun h => valuesWhere_append_neg _ l f (by simp [h])⟩
      have kd : ∀ t : String,
          ((valuesOfType t l).getD 0 "" = "" → (valuesOfType t l ++ [v]).getD 0 "" = v)
          ∧ ((valuesOfType t l).getD 0 "" ≠ "" →
              (valuesOfType t l ++ [v]).getD 0 "" = (valuesOfType t l).getD 0 "") := by
        intro t
        obtain ⟨k1, k2, _, _, _⟩ := getD_append_singleton (valuesOfType t l) v
          (fun x hx => valuesWhere_ne_empty hx)
        exact ⟨fun h => (k1 h).1, k2⟩
      by_cases c1 : f.type = some "home"
      · rw [(key "mobile").2 (by simp [c1]), (key "fax").2 (by simp [c1]),
          (key "pager").2 (by simp [c1])]
        simp only [c1, if_true]
        split_ifs <;> exact ⟨h1, h2, h3⟩
      by_cases c2 : f.type = some "work"
      · rw [(key "mobile").2 (by simp [c2]), (key "fax").2 (by simp [c2]),
          (key "pager").2 (by simp [c2])]
        simp only [c2, if_true]
        split_ifs <;> exact ⟨h1, h2, h3⟩
      by_cases c3 : f.type = some "mobile"
      · rw [(key "mobile").1 c3, (key "fax").2 (by simp [c3]), (key "pager").2 (by simp [c3])]
        have n1 : ¬ (some "mobile" = some "home") := by decide
        have n2 : ¬ (some "mobile" = some "work") := by decide
        have n3 : ¬ (some "mobile" = some "fax") := by decide
        have n4 : ¬ (some "mobile" = some "pager") := by decide
        simp only [c3, n1, n2, n3, n4, if_false, true_and, false_and, h1, Option.some.injEq]
        by_cases e0 : (valuesOfType "mobile" l).getD 0 "" = ""
        · rw [if_pos e0, (kd "mobile").1 e0]
          exact ⟨rfl, h2, h3⟩
        · rw [if_neg e0, (kd "mobile").2 e0]
          split_ifs <;> first | exact ⟨h1, h2, h3⟩ | exact ⟨rfl, h2, h3⟩
      by_cases c4 : f.type = some "fax"
      · rw [(key "mobile").2 (by simp [c4]), (key "fax").1 c4, (key "pager").2 (by simp [c4])]
        have n1 : ¬ (some "fax" = some "home") := by decide
        have n2 : ¬ (some "fax" = some "work") := by decide
        have n3 : ¬ (some "fax" = some "mobile") := by decide
        have n4 : ¬ (some "fax" = some "pager") := by decide
        simp only [c4, n1, n2, n3, n4, if_false, true_and, false_and, h2, Option.some.injEq]
        by_cases e0 : (valuesOfType "fax" l).getD 0 "" = ""
        · rw [if_pos e0, (kd "fax").1 e0]
          exact ⟨h1, rfl, h3⟩
        · rw [if_neg e0, (kd "fax").2 e0]
          split_ifs <;> first | exact ⟨h1, h2, h3⟩ | exact ⟨h1, rfl, h3⟩
      by_cases c5 : f.type = some "pager"
      · rw [(key "mobile").2 (by simp [c5]), (key "fax").2 (by simp [c5]), (key "pager").1 c5]
        have n1 : ¬ (some "pager" = some "home") := by decide
        have n2 : ¬ (some "pager" = some "work") := by decide
        have n3 : ¬ (some "pager" = some "mobile") := by decide
        have n4 : ¬ (some "pager" = some "fax") := by decide
        simp only [c5, n1, n2, n3, n4, if_false, true_and, false_and, h3, Option.some.injEq]
        by_cases e0 : (valuesOfType "pager" l).getD 0 "" = ""
        · rw [if_pos e0, (kd "pager").1 e0]
          exact ⟨h1, h2, rfl⟩
        · rw [if_neg e0, (kd "pager").2 e0]
          split_ifs <;> first | exact ⟨h1, h2, h3⟩ | exact ⟨h1, h2, rfl⟩
      · rw [(key "mobile").2 c3, (key "fax").2 c4, (key "pager").2 c5]
        simp only [c1, c2, c3, c4, c5, if_false, false_and]
        split_ifs <;> exact ⟨h1, h2, h3⟩
/-! ## Home and work entries never reach another slot -/

theorem phoneStep_home_frame (a : BBContact) (f : ContactField) (h : f.type = some "home") :
    sameNonHome (phoneStep a (some f)) a := by
  simp only [phoneStep, h]
  split_ifs <;> exact ⟨rfl, rfl, rfl, rfl, rfl, rfl⟩

theorem phoneStep_nonHome (a b : BBContact) (e : Option ContactField)
    (h : e.bind ContactField.type ≠ some "home") (hab : sameNonHome a b) :
    sameNonHome (phoneStep a e) (phoneStep b e) := by
  obtain ⟨h1, h2, h3, h4, h5, h6⟩ := hab
  cases e with
  | none => exact ⟨h1, h2, h3, h4, h5, h6⟩
  | some f =>
    have hty : ¬ f.type = some "home" := h
    simp only [phoneStep, hty, if_false, h1, h2, h3, h4, h5, h6]
    split_ifs <;>
      first
        | exact ⟨rfl, rfl, rfl, rfl, rfl, rfl⟩
        | exact ⟨h1, h2, h3, h4, h5, h6⟩

theorem phoneLoop_nonHome (l : List (Option ContactField)) (a b : BBContact)
    (hab : sameNonHome a b) :
    sameNonHome (l.foldl phoneStep a) ((withoutType "home" l).foldl phoneStep b) := by
  induction l generalizing a b with
  | nil => exact hab
  | cons e es ih =>
    by_cases h : e.bind ContactField.type = some "home"
    · have hf : withoutType "home" (e :: es) = withoutType "home" es := by
        simp [withoutType, List.filter_cons, h]
      rw [hf, List.foldl_cons]
      apply ih
      cases e with
      | none => exact hab
      | some f =>
        obtain ⟨k1, k2, k3, k4, k5, k6⟩ := phoneStep_home_frame a f h
        obtain ⟨h1, h2, h3, h4, h5, h6⟩ := hab
        exact ⟨k1.trans h1, k2.trans h2, k3.trans h3, k4.trans h4, k5.trans h5, k6.trans h6⟩
    · have hf : withoutType "home" (e :: es) = e :: withoutType "home" es := by
        simp [withoutType, List.filter_cons, h]
      rw [hf, List.foldl_cons, List.foldl_cons]
      exact ih _ _ (phoneStep_nonHome a b e h hab)

theorem phoneStep_work_frame (a : BBContact) (f : ContactField) (h : f.type = some "work") :
    sameNonWork (phoneStep a (some f)) a := by
  have hnh : ¬ (some "work" = some "home") := by decide
  simp only [phoneStep, h, hnh, if_false]
  split_ifs <;> exact ⟨rfl, rfl, rfl, rfl, rfl, rfl⟩

theorem phoneStep_nonWork (a b : BBContact) (e : Option ContactField)
    (h : e.bind ContactField.type ≠ some "work") (hab : sameNonWork a b) :
    sameNonWork (phoneStep a e) (phoneStep b e) := by
  obtain ⟨h1, h2, h3, h4, h5, h6⟩ := hab
  cases e with
  | none => exact ⟨h1, h2, h3, h4, h5, h6⟩
  | some f =>
    have hty : ¬ f.type = some "work" := h
    simp only [phoneStep, hty, if_false, h1, h2, h3, h4, h5, h6]
    split_ifs <;>
      first
        | exact ⟨rfl, rfl, rfl, rfl, rfl, rfl⟩
        | exact ⟨h1, h2, h3, h4, h5, h6⟩

theorem phoneLoop_nonWork (l : List (Option ContactField)) (a b : BBContact)
    (hab : sameNonWork a b) :
    sameNonWork (l.foldl phoneStep a) ((withoutType "work" l).foldl phoneStep b) := by
  induction l generalizing a b with
  | nil => exact hab
  | cons e es ih =>
    by_cases h : e.bind ContactField.type = some "work"
    · have hf : withoutType "work" (e :: es) = withoutType "work" es := by
        simp [withoutType, List.filter_cons, h]
      rw [hf, List.foldl_cons]
      apply ih
      cases e with
      | none => exact hab
      | some f =>
        obtain ⟨k1, k2, k3, k4, k5, k6⟩ := phoneStep_work_frame a f h
        obtain ⟨h1, h2, h3, h4, h5, h6⟩ := hab
        exact ⟨k1.trans h1, k2.trans h2, k3.trans h3, k4.trans h4, k5.trans h5, k6.trans h6⟩
    · have hf : withoutType "work" (e :: es) = e :: withoutType "work" es := by
        simp [withoutType, List.filter_cons, h]
      rw [hf, List.foldl_cons, List.foldl_cons]
      exact ih _ _ (phoneStep_nonWork a b e h hab)
/-! ## The other slot, addresses, urls and organizations of a blank record -/

theorem length_le_one_of_append {l : List String} {v : String}
    (h : (l ++ [v]).length ≤ 1) : l = [] := by
  cases l with
  | nil => rfl
  | cons a as => simp at h

/-- The other slot of a blank record after the phone loop, when no "mobile", "fax" or "pager"
number overflows: the first non-empty value of any other type. -/
theorem otherLoop_blank (l : List (Option ContactField)) :
    (valuesOfType "mobile" l).length ≤ 1 → (valuesOfType "fax" l).length ≤ 1 →
    (valuesOfType "pager" l).length ≤ 1 →
    (l.foldl phoneStep newBBContact).otherPhone = some ((valuesOther l).getD 0 "") := by
  induction l using List.reverseRecOn with
  | nil => exact fun _ _ _ => rfl
  | append_singleton l e ih =>
    intro hm hf hp
    rw [List.foldl_append]
    simp only [List.foldl_cons, List.foldl_nil]
    cases he : entryValue e with
    | none =>
      unfold valuesOfType at hm hf hp ih
      rw [valuesWhere_append_empty _ _ he] at hm hf hp
      rw [phoneStep_of_empty he]
      unfold valuesOther
      rw [valuesWhere_append_empty _ _ he]
      exact ih hm hf hp
    | some v =>
      obtain ⟨f, rfl, hv, ht⟩ := entryValue_some he
      obtain ⟨s1, s2, s3⟩ := singleLoop_blank l
      rw [phoneStep_of_value _ f hv ht]
      have key : ∀ t : String,
          (f.type = some t → valuesOfType t (l ++ [some f]) = valuesOfType t l ++ [v])
          ∧ (f.type ≠ some t → valuesOfType t (l ++ [some f]) = valuesOfType t l) :=
        fun t => ⟨fun h => valuesWhere_append_pos _ l f he (by simp [h]),
          fun h => valuesWhere_append_neg _ l f (by simp [h])⟩
      by_cases c1 : f.type = some "home"
      · rw [(key "mobile").2 (by simp [c1])] at hm
        rw [(key "fax").2 (by simp [c1])] at hf
        rw [(key "pager").2 (by simp [c1])] at hp
        have hO : valuesOther (l ++ [some f]) = valuesOther l :=
          valuesWhere_append_neg _ l f (by simp [isOtherType, c1])
        rw [hO]
        simp only [c1, if_true]
        split_ifs <;> exact ih hm hf hp
      by_cases c2 : f.type = some "work"
      · rw [(key "mobile").2 (by simp [c2])] at hm
        rw [(key "fax").2 (by simp [c2])] at hf
        rw [(key "pager").2 (by simp [c2])] at hp
        have hO : valuesOther (l ++ [some f]) = valuesOther l :=
          valuesWhere_append_neg _ l f (by simp [isOtherType, c2])
        rw [hO]
        simp only [c1, c2, if_true, if_false]
        split_ifs <;> exact ih hm hf hp
      by_cases c3 : f.type = some "mobile"
      · rw [(key "mobile").1 c3] at hm
        rw [(key "fax").2 (by simp [c3])] at hf
        rw [(key "pager").2 (by simp [c3])] at hp
        have hnil := length_le_one_of_append hm
        have hO : valuesOther (l ++ [some f]) = valuesOther l :=
          valuesWhere_append_neg _ l f (by simp [isOtherType, c3])
        have hslot : (l.foldl phoneStep newBBContact).mobilePhone = some "" := by
          rw [s1, hnil]
          rfl
        rw [hO]
        simp only [c1, c2, c3, hslot, if_false, and_self, if_true]
        exact ih (by simp [hnil]) hf hp
      by_cases c4 : f.type = some "fax"
      · rw [(key "mobile").2 (by simp [c4])] at hm
        rw [(key "fax").1 c4] at hf
        rw [(key "pager").2 (by simp [c4])] at hp
        have hnil := length_le_one_of_append hf
        have hO : valuesOther (l ++ [some f]) = valuesOther l :=
          valuesWhere_append_neg _ l f (by simp [isOtherType, c4])
        have hslot : (l.foldl phoneStep newBBContact).faxPhone = some "" := by
          rw [s2, hnil]
          rfl
        rw [hO]
        simp only [c1, c2, c3, c4, hslot, if_false, and_self, if_true, false_and]
        exact ih hm (by simp [hnil]) hp
      by_cases c5 : f.type = some "pager"
      · rw [(key "mobile").2 (by simp [c5])] at hm
        rw [(key "fax").2 (by simp [c5])] at hf
        rw [(key "pager").1 c5] at hp
        have hnil := length_le_one_of_append hp
        have hO : valuesOther (l ++ [some f]) = valuesOther l :=
          valuesWhere_append_neg _ l f (by simp [isOtherType, c5])
        have hslot : (l.foldl phoneStep newBBContact).pagerPhone = some "" := by
          rw [s3, hnil]
          rfl
        rw [hO]
        simp only [c1, c2, c3, c4, c5, hslot, if_false, and_self, if_true, false_and]
        exact ih hm hf (by simp [hnil])
      · rw [(key "mobile").2 c3] at hm
        rw [(key "fax").2 c4] at hf
        rw [(key "pager").2 c5] at hp
        have hO : valuesOther (l ++ [some f]) = valuesOther l ++ [v] :=
          valuesWhere_append_pos _ l f he (by simp [isOtherType, c1, c2, c3, c4, c5])
        obtain ⟨k1, k2, _, _, _⟩ := getD_append_singleton (valuesOther l) v
          (fun x hx => valuesWhere_ne_empty hx)
        rw [hO]
        simp only [c1, c2, c3, c4, c5, if_false, false_and, ih hm hf hp, Option.some.injEq]
        by_cases e0 : (valuesOther l).getD 0 "" = ""
        · rw [if_pos e0, (k1 e0).1]
        · rw [if_neg e0, k2 e0]
          exact ih hm hf hp

/-- The web page slot after the url loop on a record whose slot is empty: the first non-empty
url value. -/
theorem urlLoop_empty (l : List (Option ContactField)) (bb : BBContact)
    (h : bb.webpage = some "") :
    (urlLoop bb l).webpage = some ((nonEmptyValues l).getD 0 "") := by
  induction l with
  | nil => simpa [urlLoop, nonEmptyValues] using h
  | cons e es ih =>
    cases he : entryValue e with
    | none =>
      have hV : nonEmptyValues (e :: es) = nonEmptyValues es := by
        simp [nonEmptyValues, List.filterMap_cons, he]
      rw [hV, ← ih]
      cases e with
      | none => rfl
      | some f =>
        simp only [entryValue] at he
        split_ifs at he with ht
        · cases hv : f.value <;> simp_all [truthy]
        · simp [urlLoop, ht]
    | some v =>
      obtain ⟨f, rfl, hv, ht⟩ := entryValue_some he
      have hV : nonEmptyValues (some f :: es) = v :: nonEmptyValues es := by
        simp [nonEmptyValues, List.filterMap_cons, he]
      rw [hV]
      simp [urlLoop, hv, ht, h]

/-- The company and job title slots after the organization loop on a record whose company slot
is empty: those of the first non-null organization. -/
theorem orgLoop_empty (l : List (Option ContactOrganization)) (bb : BBContact)
    (h : bb.company = some "") :
    (orgLoop bb l).company
        = some (((l.filterMap id).head?.map (fun o => orEmpty o.name)).getD "")
      ∧ (orgLoop bb l).jobTitle
        = ((l.filterMap id).head?.map (fun o => some (orEmpty o.title))).getD bb.jobTitle := by
  induction l with
  | nil => simpa [orgLoop] using h
  | cons e es ih =>
    cases e with
    | none => simpa [orgLoop] using ih
    | some o => simp [orgLoop, h]

/-- The address slots after the address loop: the first two non-null addresses in vendor shape;
a slot for which there is no address is left as it was. -/
theorem addressLoop_slots (l : List (Option ContactAddress)) (bb : BBContact) :
    (addressLoop bb l).homeAddress
        = (((l.filterMap id)[0]?).map ContactAddress.toBlackBerryAddress).or bb.homeAddress
      ∧ (addressLoop bb l).workAddress
        = (((l.filterMap id)[1]?).map ContactAddress.toBlackBerryAddress).or bb.workAddress := by
  have key : ∀ (l : List (Option ContactAddress)),
      (l.foldl addressStep { bbContact := bb, bbHomeAddress := none, bbWorkAddress := none })
        = { bbContact := { bb with
              homeAddress :=
                (((l.filterMap id)[0]?).map ContactAddress.toBlackBerryAddress).or bb.homeAddress
              workAddress :=
                (((l.filterMap id)[1]?).map ContactAddress.toBlackBerryAddress).or bb.workAddress }
            bbHomeAddress := ((l.filterMap id)[0]?).map ContactAddress.toBlackBerryAddress
            bbWorkAddress := ((l.filterMap id)[1]?).map ContactAddress.toBlackBerryAddress } := by
    intro l
    induction l using List.reverseRecOn with
    | nil => rfl
    | append_singleton l e ih =>
      rw [List.foldl_append, ih]
      cases e with
      | none => simp [addressStep]
      | some a =>
        rcases hN : l.filterMap id with _ | ⟨x, _ | ⟨y, rest⟩⟩ <;>
          simp [addressStep, hN, List.filterMap_append]
  unfold addressLoop
  rw [key l]
  exact ⟨rfl, rfl⟩
/-! ## Reading the slots back -/

theorem pushField_three (t : Option String) (vs : List String) (hne : ∀ x ∈ vs, x ≠ "")
    (hlen : vs.length ≤ 3) :
    pushField t (some (vs.getD 0 "")) ++ pushField t (some (vs.getD 1 "")) ++
      pushField t (some (vs.getD 2 "")) = typedFields t vs := by
  rcases vs with _ | ⟨a, _ | ⟨b, _ | ⟨c, _ | ⟨d, rest⟩⟩⟩⟩
  · simp [pushField, typedFields, truthy]
  · have ha : a ≠ "" := hne a (by simp)
    simp [pushField, typedFields, truthy, ha]
  · have ha : a ≠ "" := hne a (by simp)
    have hb : b ≠ "" := hne b (by simp)
    simp [pushField, typedFields, truthy, ha, hb]
  · have ha : a ≠ "" := hne a (by simp)
    have hb : b ≠ "" := hne b (by simp)
    have hc : c ≠ "" := hne c (by simp)
    simp [pushField, typedFields, truthy, ha, hb, hc]
  · simp at hlen

theorem pushField_one (t : Option String) (vs : List String) (hne : ∀ x ∈ vs, x ≠ "")
    (hlen : vs.length ≤ 1) :
    pushField t (some (vs.getD 0 "")) = typedFields t vs
      ∧ pushField t (some (vs.getD 1 "")) = [] := by
  rcases vs with _ | ⟨a, _ | ⟨b, rest⟩⟩
  · simp [pushField, typedFields, truthy]
  · have ha : a ≠ "" := hne a (by simp)
    simp [pushField, typedFields, truthy, ha]
  · simp at hlen

theorem truthy_orEmpty (v : Option String) : truthy (some (orEmpty v)) = truthy v := by
  cases v with
  | none => simp [orEmpty, truthy]
  | some s => rw [orEmpty_some]
/-! ## The listener map -/

theorem lookup_cons_self (k : String) (v : Listener) (rest : List (String × Listener)) :
    List.lookup k ((k, v) :: rest) = some v := by
  simp [List.lookup]

theorem lookup_cons_ne (k k2 : String) (v : Listener) (rest : List (String × Listener))
    (h : k ≠ k2) : List.lookup k ((k2, v) :: rest) = List.lookup k rest := by
  have hb : (k == k2) = false := by simpa using h
  simp [List.lookup, hb]

theorem filter_cons_self (id : String) (v : Listener) (rest : List (String × Listener)) :
    ((id, v) :: rest).filter (fun kv => kv.1 != id) = rest.filter (fun kv => kv.1 != id) := by
  simp [List.filter_cons]

theorem filter_cons_ne (id k : String) (v : Listener) (rest : List (String × Listener))
    (h : k ≠ id) :
    ((k, v) :: rest).filter (fun kv => kv.1 != id)
      = (k, v) :: rest.filter (fun kv => kv.1 != id) := by
  simp [List.filter_cons, h]

theorem getListener_deleteListener_self (ls : List (String × Listener)) (id : String) :
    getListener (deleteListener ls id) id = none := by
  unfold getListener deleteListener
  induction ls with
  | nil => rfl
  | cons kv rest ih =>
    obtain ⟨k, v⟩ := kv
    by_cases h : k = id
    · rw [h, filter_cons_self]
      exact ih
    · rw [filter_cons_ne _ _ _ _ h, lookup_cons_ne _ _ _ _ (fun e => h e.symm)]
      exact ih

theorem getListener_deleteListener_ne (ls : List (String × Listener)) (id k : String)
    (hk : k ≠ id) : getListener (deleteListener ls id) k = getListener ls k := by
  unfold getListener deleteListener
  induction ls with
  | nil => rfl
  | cons kv rest ih =>
    obtain ⟨k2, v⟩ := kv
    by_cases h : k2 = id
    · rw [h, filter_cons_self, lookup_cons_ne _ _ _ _ hk]
      exact ih
    · rw [filter_cons_ne _ _ _ _ h]
      by_cases h3 : k = k2
      · rw [h3, lookup_cons_self, lookup_cons_self]
      · rw [lookup_cons_ne _ _ _ _ h3, lookup_cons_ne _ _ _ _ h3]
        exact ih

theorem deleteListener_idem (ls : List (String × Listener)) (id : String) :
    deleteListener (deleteListener ls id) id = deleteListener ls id := by
  simp [deleteListener, List.filter_filter]

theorem lookup_map_set_self (ls : List (String × Listener)) (id : String) (entry : Listener)
    (h : (List.lookup id ls).isSome = true) :
    List.lookup id (ls.map (fun kv => if kv.1 = id then (id, entry) else kv)) = some entry := by
  induction ls with
  | nil => simp at h
  | cons kv rest ih =>
    obtain ⟨k2, v⟩ := kv
    by_cases h2 : k2 = id
    · simp only [List.map_cons, h2, if_true]
      exact lookup_cons_self _ _ _
    · have h3 : id ≠ k2 := fun e => h2 e.symm
      rw [lookup_cons_ne _ _ _ _ h3] at h
      simp only [List.map_cons, h2, if_false]
      rw [lookup_cons_ne _ _ _ _ h3]
      exact ih h

theorem lookup_map_set_ne (ls : List (String × Listener)) (id k : String) (entry : Listener)
    (hk : k ≠ id) :
    List.lookup k (ls.map (fun kv => if kv.1 = id then (id, entry) else kv))
      = List.lookup k ls := by
  induction ls with
  | nil => rfl
  | cons kv rest ih =>
    obtain ⟨k2, v⟩ := kv
    by_cases h2 : k2 = id
    · have h3 : k ≠ k2 := fun e => hk (e.trans h2)
      simp only [List.map_cons, h2, if_true]
      rw [lookup_cons_ne _ _ _ _ hk, ← h2, lookup_cons_ne _ _ _ _ h3, ← ih, h2]
    · simp only [List.map_cons, h2, if_false]
      by_cases h3 : k = k2
      · rw [h3, lookup_cons_self, lookup_cons_self]
      · rw [lookup_cons_ne _ _ _ _ h3, lookup_cons_ne _ _ _ _ h3]
        exact ih

theorem lookup_append_singleton (ls : List (String × Listener)) (id k : String)
    (entry : Listener) :
    List.lookup k (ls ++ [(id, entry)])
      = (List.lookup k ls).or (if k = id then some entry else none) := by
  induction ls with
  | nil =>
    by_cases h : k = id
    · rw [h]
      simp [lookup_cons_self]
    · simp [lookup_cons_ne _ _ _ _ h, h]
  | cons kv rest ih =>
    obtain ⟨k2, v⟩ := kv
    by_cases h3 : k = k2
    · rw [h3, List.cons_append, lookup_cons_self, lookup_cons_self]
      rfl
    · rw [List.cons_append, lookup_cons_ne _ _ _ _ h3, lookup_cons_ne _ _ _ _ h3]
      exact ih

theorem getListener_setListener_self (ls : List (String × Listener)) (id : String)
    (entry : Listener) : getListener (setListener ls id entry) id = some entry := by
  unfold getListener setListener
  cases h : List.lookup id ls with
  | none => simp [lookup_append_singleton, h]
  | some v =>
    simp only [Option.isSome_some, if_true]
    exact lookup_map_set_self ls id entry (by simp [h])

theorem getListener_setListener_ne (ls : List (String × Listener)) (id k : String)
    (entry : Listener) (hk : k ≠ id) :
    getListener (setListener ls id entry) k = getListener ls k := by
  unfold getListener setListener
  cases h : List.lookup id ls with
  | none => simp [lookup_append_singleton, hk]
  | some v =>
    simp only [Option.isSome_some, if_true]
    exact lookup_map_set_ne ls id k entry hk
/-! ## Slots read back, invariants of the loops -/

theorem filter_map_phoneSlot (t : String) (v : Option String)
    (rest : List (String × Option String)) :
    (((t, v) :: rest).filter (fun tv => truthy tv.2)).map
        (fun tv => some ({ type := some tv.1, value := tv.2 } : ContactField))
      = pushField (some t) v ++ (rest.filter (fun tv => truthy tv.2)).map
          (fun tv => some ({ type := some tv.1, value := tv.2 } : ContactField)) := by
  cases h : truthy v <;> simp [List.filter_cons, pushField, h]

theorem truthy_isSome {v : Option String} (h : truthy v = true) : v.isSome = true := by
  cases v with
  | none => simp [truthy] at h
  | some s => rfl

theorem emailLoop_nonNull (l : List (Option ContactField)) (bb : BBContact)
    (h1 : bb.email1.isSome = true) (h2 : bb.email2.isSome = true)
    (h3 : bb.email3.isSome = true) :
    (l.foldl emailStep bb).email1.isSome = true ∧ (l.foldl emailStep bb).email2.isSome = true
      ∧ (l.foldl emailStep bb).email3.isSome = true := by
  induction l generalizing bb with
  | nil => exact ⟨h1, h2, h3⟩
  | cons e es ih =>
    rw [List.foldl_cons]
    cases e with
    | none => exact ih bb h1 h2 h3
    | some f =>
      cases ht : truthy f.value with
      | false =>
        have : emailStep bb (some f) = bb := by simp [emailStep, ht]
        rw [this]
        exact ih bb h1 h2 h3
      | true =>
        have hv := truthy_isSome ht
        simp only [emailStep, ht, Bool.not_true, Bool.false_eq_true, if_false]
        split_ifs
        · exact ih _ hv h2 h3
        · exact ih _ h1 hv h3
        · exact ih _ h1 h2 hv
        · exact ih _ h1 h2 h3

theorem phoneStep_nonNull (bb : BBContact) (e : Option ContactField) (h : phonesNonNull bb) :
    phonesNonNull (phoneStep bb e) := by
  obtain ⟨h1, h2, h3, h4, h5, h6, h7, h8⟩ := h
  cases e with
  | none => exact ⟨h1, h2, h3, h4, h5, h6, h7, h8⟩
  | some f =>
    cases ht : truthy f.value with
    | false =>
      have : phoneStep bb (some f) = bb := by simp [phoneStep, ht]
      rw [this]
      exact ⟨h1, h2, h3, h4, h5, h6, h7, h8⟩
    | true =>
      have hv := truthy_isSome ht
      simp only [phoneStep, ht, Bool.not_true, Bool.false_eq_true, if_false]
      split_ifs <;>
        first
          | exact ⟨h1, h2, h3, h4, h5, h6, h7, h8⟩
          | exact ⟨hv, h2, h3, h4, h5, h6, h7, h8⟩
          | exact ⟨h1, hv, h3, h4, h5, h6, h7, h8⟩
          | exact ⟨h1, h2, hv, h4, h5, h6, h7, h8⟩
          | exact ⟨h1, h2, h3, hv, h5, h6, h7, h8⟩
          | exact ⟨h1, h2, h3, h4, hv, h6, h7, h8⟩
          | exact ⟨h1, h2, h3, h4, h5, hv, h7, h8⟩
          | exact ⟨h1, h2, h3, h4, h5, h6, hv, h8⟩
          | exact ⟨h1, h2, h3, h4, h5, h6, h7, hv⟩

theorem phoneLoop_nonNull (l : List (Option ContactField)) (bb : BBContact)
    (h : phonesNonNull bb) : phonesNonNull (l.foldl phoneStep bb) := by
  induction l generalizing bb with
  | nil => exact h
  | cons e es ih => exact ih _ (phoneStep_nonNull bb e h)

theorem urlLoop_nonNull (l : List (Option ContactField)) (bb : BBContact)
    (h : bb.webpage.isSome = true) : (urlLoop bb l).webpage.isSome = true := by
  induction l with
  | nil => exact h
  | cons e es ih =>
    cases e with
    | none => simpa only [urlLoop] using ih
    | some f =>
      cases ht : truthy f.value with
      | false => simpa [urlLoop, ht] using ih
      | true =>
        simp only [urlLoop, ht, Bool.not_true, Bool.false_eq_true, if_false]
        split_ifs
        · exact truthy_isSome ht
        · exact ih

theorem orgLoop_nonNull (l : List (Option ContactOrganization)) (bb : BBContact)
    (h1 : bb.company.isSome = true) (h2 : bb.jobTitle.isSome = true) :
    (orgLoop bb l).company.isSome = true ∧ (orgLoop bb l).jobTitle.isSome = true := by
  induction l with
  | nil => exact ⟨h1, h2⟩
  | cons e es ih =>
    cases e with
    | none => simpa only [orgLoop] using ih
    | some o =>
      simp only [orgLoop]
      split_ifs
      · exact ⟨rfl, rfl⟩
      · exact ih

/-- The record after the address loop: the two address slots are set from the first two
non-null addresses, everything else is as before. -/
theorem addressLoop_eq (l : List (Option ContactAddress)) (bb : BBContact) :
    addressLoop bb l =
      { bb with
        homeAddress :=
          (((l.filterMap id)[0]?).map ContactAddress.toBlackBerryAddress).or bb.homeAddress
        workAddress :=
          (((l.filterMap id)[1]?).map ContactAddress.toBlackBerryAddress).or bb.workAddress } := by
  rw [addressLoop_sim l bb bb rfl rfl, (addressLoop_slots l bb).1, (addressLoop_slots l bb).2]

theorem filterMap_take_two (l : List (Option ContactAddress)) :
    ((((l.filterMap id).take 2).map some).filterMap id)[0]? = (l.filterMap id)[0]?
      ∧ ((((l.filterMap id).take 2).map some).filterMap id)[1]? = (l.filterMap id)[1]? := by
  have hx : ∀ x : List ContactAddress, (x.map some).filterMap id = x := by
    intro x
    induction x with
    | nil => rfl
    | cons a as ih => simp [List.filterMap_cons]
  have h : (((l.filterMap id).take 2).map some).filterMap id = (l.filterMap id).take 2 :=
    hx _
  rw [h]
  simp [List.getElem?_take]
/-! ## The filter expression as a fold -/

theorem orFold_snoc (ps : List FilterExpression) (q : FilterExpression) :
    orFold (ps ++ [q])
      = some (match orFold ps with
          | none => q
          | some e => FilterExpression.comb e "OR" q) := by
  cases ps with
  | nil => rfl
  | cons p rest => simp [orFold, List.foldl_append]

theorem addPredicate_orFold (pattern : String) (ps : List FilterExpression) (f : String) :
    addPredicate pattern (orFold ps) f
      = orFold (ps ++ [FilterExpression.leaf f "REGEX" pattern]) := by
  rw [orFold_snoc]
  cases orFold ps <;> rfl

theorem foldl_addPredicate (pattern : String) (l : List String) (ps : List FilterExpression) :
    l.foldl (addPredicate pattern) (orFold ps)
      = orFold (ps ++ l.map (fun f => FilterExpression.leaf f "REGEX" pattern)) := by
  induction l generalizing ps with
  | nil => simp
  | cons f fs ih =>
    rw [List.foldl_cons, addPredicate_orFold, ih]
    simp

theorem fieldStep_skipped (pattern : String) (acc : Option FilterExpression)
    (name : Option String) (h : skippedName name) : fieldStep pattern acc name = acc := by
  unfold fieldStep
  rcases h with h | h
  · simp [h]
  · simp [h]

theorem vendorFieldsOfName_skipped (name : Option String) (h : skippedName name) :
    vendorFieldsOfName name = [] := by
  unfold vendorFieldsOfName
  rcases h with h | h
  · simp [h]
  · simp [h]

theorem fieldStep_listValued (pattern : String) (ps : List FilterExpression)
    (name : Option String) (h : listValued name = true) :
    fieldStep pattern (orFold ps) name
      = orFold (ps ++ (vendorFieldsOfName name).map
          (fun f => FilterExpression.leaf f "REGEX" pattern)) := by
  unfold fieldStep vendorFieldsOfName
  cases ht : truthy name with
  | false => simp
  | true =>
    cases hm : fieldMappings (name.getD "") with
    | none => simp
    | some m =>
      cases m with
      | single s => simp [listValued, hm] at h
      | array l =>
        simp only [Bool.not_true, Bool.false_eq_true, if_false, if_true, forIn, listedFields]
        exact foldl_addPredicate pattern l ps

theorem foldl_fieldStep (pattern : String) (fields : List (Option String))
    (ps : List FilterExpression) (h : ∀ name ∈ fields, listValued name = true) :
    fields.foldl (fieldStep pattern) (orFold ps)
      = orFold (ps ++ (vendorFieldsOf fields).map
          (fun f => FilterExpression.leaf f "REGEX" pattern)) := by
  induction fields generalizing ps with
  | nil => simp [vendorFieldsOf]
  | cons n ns ih =>
    rw [List.foldl_cons, fieldStep_listValued pattern ps n (h n (by simp)),
      ih _ (fun x hx => h x (by simp [hx]))]
    simp [vendorFieldsOf]

theorem foldl_fieldStep_skip (pattern : String) (pre post : List (Option String))
    (name : Option String) (acc : Option FilterExpression) (h : skippedName name) :
    (pre ++ name :: post).foldl (fieldStep pattern) acc
      = (pre ++ post).foldl (fieldStep pattern) acc := by
  rw [List.foldl_append, List.foldl_append, List.foldl_cons, fieldStep_skipped _ _ _ h]
/-! ## Slots that are not empty are not written -/

theorem emailStep_keeps (bb : BBContact) (e : Option ContactField) :
    (bb.email1 ≠ some "" → (emailStep bb e).email1 = bb.email1)
      ∧ (bb.email2 ≠ some "" → (emailStep bb e).email2 = bb.email2)
      ∧ (bb.email3 ≠ some "" → (emailStep bb e).email3 = bb.email3) := by
  cases e with
  | none => exact ⟨fun _ => rfl, fun _ => rfl, fun _ => rfl⟩
  | some f =>
    simp only [emailStep]
    refine ⟨?_, ?_, ?_⟩ <;> intro h <;> split_ifs <;> rfl

theorem emailLoop_keeps (l : List (Option ContactField)) (bb : BBContact) :
    (bb.email1 ≠ some "" → (l.foldl emailStep bb).email1 = bb.email1)
      ∧ (bb.email2 ≠ some "" → (l.foldl emailStep bb).email2 = bb.email2)
      ∧ (bb.email3 ≠ some "" → (l.foldl emailStep bb).email3 = bb.email3) := by
  induction l generalizing bb with
  | nil => exact ⟨fun _ => rfl, fun _ => rfl, fun _ => rfl⟩
  | cons e es ih =>
    obtain ⟨s1, s2, s3⟩ := emailStep_keeps bb e
    obtain ⟨i1, i2, i3⟩ := ih (emailStep bb e)
    rw [List.foldl_cons]
    refine ⟨?_, ?_, ?_⟩
    · intro h
      rw [i1 (by rw [s1 h]; exact h), s1 h]
    · intro h
      rw [i2 (by rw [s2 h]; exact h), s2 h]
    · intro h
      rw [i3 (by rw [s3 h]; exact h), s3 h]

theorem keepsPhones_refl (a : BBContact) : keepsPhones a a :=
  ⟨fun _ => rfl, fun _ => rfl, fun _ => rfl, fun _ => rfl, fun _ => rfl, fun _ => rfl,
    fun _ => rfl, fun _ => rfl⟩

theorem keepsPhones_trans {a b c : BBContact} (h1 : keepsPhones a b) (h2 : keepsPhones b c) :
    keepsPhones a c := by
  obtain ⟨a1, a2, a3, a4, a5, a6, a7, a8⟩ := h1
  obtain ⟨b1, b2, b3, b4, b5, b6, b7, b8⟩ := h2
  refine ⟨?_, ?_, ?_, ?_, ?_, ?_, ?_, ?_⟩
  · intro h
    rw [b1 (by rw [a1 h]; exact h), a1 h]
  · intro h
    rw [b2 (by rw [a2 h]; exact h), a2 h]
  · intro h
    rw [b3 (by rw [a3 h]; exact h), a3 h]
  · intro h
    rw [b4 (by rw [a4 h]; exact h), a4 h]
  · intro h
    rw [b5 (by rw [a5 h]; exact h), a5 h]
  · intro h
    rw [b6 (by rw [a6 h]; exact h), a6 h]
  · intro h
    rw [b7 (by rw [a7 h]; exact h), a7 h]
  · intro h
    rw [b8 (by rw [a8 h]; exact h), a8 h]

theorem phoneStep_keeps (bb : BBContact) (e : Option ContactField) :
    keepsPhones bb (phoneStep bb e) := by
  cases e with
  | none => exact keepsPhones_refl bb
  | some f =>
    simp only [phoneStep]
    split_ifs <;>
      first
        | exact keepsPhones_refl bb
        | (refine ⟨?_, ?_, ?_, ?_, ?_, ?_, ?_, ?_⟩ <;> intro h <;>
            first
              | rfl
              | contradiction
              | (rename_i hc; exact absurd hc.2 h))

theorem phoneLoop_keeps (l : List (Option ContactField)) (bb : BBContact) :
    keepsPhones bb (l.foldl phoneStep bb) := by
  induction l generalizing bb with
  | nil => exact keepsPhones_refl bb
  | cons e es ih =>
    rw [List.foldl_cons]
    exact keepsPhones_trans (phoneStep_keeps bb e) (ih (phoneStep bb e))

theorem urlLoop_keeps (l : List (Option ContactField)) (bb : BBContact)
    (h : bb.webpage ≠ some "") : (urlLoop bb l).webpage = bb.webpage := by
  induction l with
  | nil => rfl
  | cons e es ih =>
    cases e with
    | none => simpa only [urlLoop] using ih
    | some f =>
      simp only [urlLoop]
      split_ifs <;> exact ih

theorem orgLoop_keeps (l : List (Option ContactOrganization)) (bb : BBContact)
    (h : bb.company ≠ some "") : (orgLoop bb l).company = bb.company := by
  induction l with
  | nil => rfl
  | cons e es ih =>
    cases e with
    | none => simpa only [orgLoop] using ih
    | some o =>
      simp only [orgLoop]
      split_ifs
      · contradiction
      · exact ih

/-! ## The one-shot entry -/

theorem deleteListener_of_absent (ls : List (String × Listener)) (id : String)
    (h : getListener ls id = none) : deleteListener ls id = ls := by
  unfold getListener deleteListener at *
  induction ls with
  | nil => rfl
  | cons kv rest ih =>
    obtain ⟨k, v⟩ := kv
    by_cases hk : k = id
    · rw [hk, lookup_cons_self] at h
      cases h
    · rw [lookup_cons_ne _ _ _ _ (fun e => hk e.symm)] at h
      rw [filter_cons_ne _ _ _ _ hk, ih h]

theorem setListener_of_absent (ls : List (String × Listener)) (id : String) (entry : Listener)
    (h : getListener ls id = none) : setListener ls id entry = ls ++ [(id, entry)] := by
  unfold getListener at h
  simp [setListener, h]

theorem deleteListener_setListener (ls : List (String × Listener)) (id : String)
    (entry : Listener) (h : getListener ls id = none) :
    deleteListener (setListener ls id entry) id = ls := by
  rw [setListener_of_absent ls id entry h]
  have h2 := deleteListener_of_absent ls id h
  unfold deleteListener at *
  rw [List.filter_append, h2]
  simp
/-! ## What the native callbacks do to the listener map -/

theorem catchAndLog_listeners (line : String) (tried : Geolocation × Option JSError) :
    (catchAndLog line tried).listeners = tried.1.listeners
      ∧ (catchAndLog line tried).execLog = tried.1.execLog := by
  unfold catchAndLog
  cases tried.2 <;> exact ⟨rfl, rfl⟩

theorem callCallback_listeners (st : Geolocation) (f : Option Callback) (arg : CallbackArg) :
    (callCallback st f arg).1.listeners = st.listeners
      ∧ (callCallback st f arg).1.execLog = st.execLog := by
  cases f <;> exact ⟨rfl, rfl⟩

theorem success_listeners (st : Geolocation) (id : String) (p : RawFix) :
    (st.success id (some { message := some p })).1.listeners
        = (cleanupGlobal st id).listeners
      ∧ (st.success id (some { message := some p })).1.execLog = st.execLog := by
  simp only [Geolocation.success, cleanupGlobal]
  constructor
  · split_ifs
    · simp only [(catchAndLog_listeners _ _).1]
      cases getListener st.listeners id with
      | none => rfl
      | some entry => simp only [(callCallback_listeners _ _ _).1]
    · simp only [(catchAndLog_listeners _ _).1]
      cases getListener st.listeners id with
      | none => rfl
      | some entry => simp only [(callCallback_listeners _ _ _).1]
  · split_ifs
    · simp only [(catchAndLog_listeners _ _).2]
      cases getListener st.listeners id with
      | none => rfl
      | some entry => simp only [(callCallback_listeners _ _ _).2]
    · simp only [(catchAndLog_listeners _ _).2]
      cases getListener st.listeners id with
      | none => rfl
      | some entry => simp only [(callCallback_listeners _ _ _).2]

theorem fail_listeners (st : Geolocation) (id : String) (e : RawError) :
    (st.fail id (some e)).1.listeners = (cleanupGlobal st id).listeners
      ∧ (st.fail id (some e)).1.execLog = st.execLog := by
  simp only [Geolocation.fail, cleanupGlobal]
  constructor
  · split_ifs
    · simp only [(catchAndLog_listeners _ _).1]
      cases getListener st.listeners id with
      | none => rfl
      | some entry => simp only [(callCallback_listeners _ _ _).1]
    · simp only [(catchAndLog_listeners _ _).1]
      cases getListener st.listeners id with
      | none => rfl
      | some entry => simp only [(callCallback_listeners _ _ _).1]
  · split_ifs
    · simp only [(catchAndLog_listeners _ _).2]
      cases getListener st.listeners id with
      | none => rfl
      | some entry => simp only [(callCallback_listeners _ _ _).2]
    · simp only [(catchAndLog_listeners _ _).2]
      cases getListener st.listeners id with
      | none => rfl
      | some entry => simp only [(callCallback_listeners _ _ _).2]

theorem success_listeners_watch (st : Geolocation) (id : String) (r : Option FixResult)
    (h : id ≠ "global") : (st.success id r).1.listeners = st.listeners := by
  cases r with
  | none => rfl
  | some res =>
    obtain ⟨m⟩ := res
    cases m with
    | none => rfl
    | some p =>
      rw [(success_listeners st id p).1]
      simp [cleanupGlobal, h]

theorem fail_listeners_watch (st : Geolocation) (id : String) (r : Option RawError)
    (h : id ≠ "global") : (st.fail id r).1.listeners = st.listeners := by
  cases r with
  | none => rfl
  | some e =>
    rw [(fail_listeners st id e).1]
    simp [cleanupGlobal, h]

theorem getCurrentPosition_admitted (st : Geolocation) (s f : Option Callback)
    (o : Option PositionOptions) (h : getListener st.listeners "global" = none) :
    (getCurrentPosition st s f o).listeners
        = setListener st.listeners "global" { success := s, fail := f }
      ∧ (getCurrentPosition st s f o).execLog = st.execLog ++
          [{ success := none, fail := f, service := "Geolocation",
             action := "getCurrentPosition",
             args := [.str "global", .num (maximumAgeOf o), .num (timeoutOf 3600000 o),
                      .bool (enableHighAccuracyOf o)] }] := by
  simp [getCurrentPosition, h]

/-! ## Address round trip (C2) -/

/-- C2, as stated, fails: for the address with streetAddress "1 Main St", converting to the
vendor shape and back does not give back the same five fields (the street comes back as
"1 Main St, "). -/
theorem address_roundtrip_counterexample :
    ¬ (∃ r, ContactAddress.fromBlackBerryAddress (some sampleAddress.toBlackBerryAddress) = some r
        ∧ r.streetAddress = sampleAddress.streetAddress
        ∧ r.locality = sampleAddress.locality
        ∧ r.region = sampleAddress.region
        ∧ r.postalCode = sampleAddress.postalCode
        ∧ r.country = sampleAddress.country) := by
  decide

/-- C2, amended: for every ContactAddress a, converting to the vendor shape and back gives
locality, region, postalCode and country equal to those of a whenever they are strings
(and "" when absent), while streetAddress comes back as the street of a (or "" when absent)
followed by the separator ", " that precedes the empty address2 slot. -/
theorem address_roundtrip (a : ContactAddress) :
    ∃ r, ContactAddress.fromBlackBerryAddress (some a.toBlackBerryAddress) = some r
      ∧ r.streetAddress = some (orEmpty a.streetAddress ++ ", ")
      ∧ r.locality = some (orEmpty a.locality)
      ∧ r.region = some (orEmpty a.region)
      ∧ r.postalCode = some (orEmpty a.postalCode)
      ∧ r.country = some (orEmpty a.country)
      ∧ (∀ s, a.streetAddress = some s → r.streetAddress = some (s ++ ", "))
      ∧ (∀ s, a.locality = some s → r.locality = a.locality)
      ∧ (∀ s, a.region = some s → r.region = a.region)
      ∧ (∀ s, a.postalCode = some s → r.postalCode = a.postalCode)
      ∧ (∀ s, a.country = some s → r.country = a.country) := by
  refine ⟨_, rfl, ?_, ?_, ?_, ?_, ?_, ?_, ?_, ?_, ?_, ?_⟩
  · simp [ContactAddress.toBlackBerryAddress, newBBAddress, orEmpty_some]
  · simp [ContactAddress.toBlackBerryAddress, orEmpty_some]
  · simp [ContactAddress.toBlackBerryAddress, orEmpty_some]
  · simp [ContactAddress.toBlackBerryAddress, orEmpty_some]
  · simp [ContactAddress.toBlackBerryAddress, orEmpty_some]
  · intro s hs
    simp [ContactAddress.toBlackBerryAddress, newBBAddress, orEmpty_some, hs]
  · intro s hs
    simp [ContactAddress.toBlackBerryAddress, orEmpty_some, hs]
  · intro s hs
    simp [ContactAddress.toBlackBerryAddress, orEmpty_some, hs]
  · intro s hs
    simp [ContactAddress.toBlackBerryAddress, orEmpty_some, hs]
  · intro s hs
    simp [ContactAddress.toBlackBerryAddress, orEmpty_some, hs]

/-- Witness for C2: the amended round trip at the sample address. -/
theorem address_roundtrip_witness :
    ∃ r, ContactAddress.fromBlackBerryAddress (some sampleAddress.toBlackBerryAddress) = some r
      ∧ r.streetAddress = some "1 Main St, "
      ∧ r.locality = some "Springfield" ∧ r.country = some "USA" := by
  obtain ⟨r, hr, _, _, _, _, _, h1, h2, _, _, h5⟩ := address_roundtrip sampleAddress
  exact ⟨r, hr, h1 "1 Main St" rfl, h2 "Springfield" rfl, h5 "USA" rfl⟩

/-! ## Filter expressions (C3, C4, C5) -/

/-- C3: for every non-empty filter text t, buildFilterExpression(["name"], t) is
OR(REGEX(firstName, p), REGEX(lastName, p)) with p = ".*" followed by the class
"[" lower(c) upper(c) "]" of each character c of t in order, followed by ".*"; for t = "Bob"
the pattern is ".*[bB][oO][bB].*". -/
theorem buildFilterExpression_name (host : Host) (t : String) (ht : t ≠ "") :
    buildFilterExpression host (some [some "name"]) (some t)
        = some (FilterExpression.comb
            (FilterExpression.leaf "firstName" "REGEX"
              (".*" ++ String.join (t.toList.map (charClass host)) ++ ".*"))
            "OR"
            (FilterExpression.leaf "lastName" "REGEX"
              (".*" ++ String.join (t.toList.map (charClass host)) ++ ".*")))
      ∧ buildFilterExpression asciiHost (some [some "name"]) (some "Bob")
        = some (FilterExpression.comb
            (FilterExpression.leaf "firstName" "REGEX" ".*[bB][oO][bB].*")
            "OR"
            (FilterExpression.leaf "lastName" "REGEX" ".*[bB][oO][bB].*")) := by
  constructor
  · have hm : fieldMappings "name" = some (BBFields.array ["firstName", "lastName"]) := by
      decide
    simp [buildFilterExpression, truthy, ht, fieldStep, hm, forIn, addPredicate, ciFilter_eq]
  · decide

/-- Witness for C3: the filter text "norm" of the source comment. -/
theorem buildFilterExpression_name_witness :
    buildFilterExpression asciiHost (some [some "name"]) (some "norm")
        = some (FilterExpression.comb
            (FilterExpression.leaf "firstName" "REGEX"
              (".*" ++ String.join ("norm".toList.map (charClass asciiHost)) ++ ".*"))
            "OR"
            (FilterExpression.leaf "lastName" "REGEX"
              (".*" ++ String.join ("norm".toList.map (charClass asciiHost)) ++ ".*"))) :=
  (buildFilterExpression_name asciiHost "norm" (by decide)).1

/-- C4 fails on the code for names mapped to a single vendor field: for ["displayName"] and the
filter text "Bob" the code builds five predicates, one per character of "title", instead of the
single predicate REGEX(title, pattern). -/
theorem buildFilterExpression_displayName :
    buildFilterExpression asciiHost (some [some "displayName"]) (some "Bob")
        = some (FilterExpression.comb (FilterExpression.comb (FilterExpression.comb
            (FilterExpression.comb
              (FilterExpression.leaf "t" "REGEX" ".*[bB][oO][bB].*") "OR"
              (FilterExpression.leaf "i" "REGEX" ".*[bB][oO][bB].*")) "OR"
              (FilterExpression.leaf "t" "REGEX" ".*[bB][oO][bB].*")) "OR"
              (FilterExpression.leaf "l" "REGEX" ".*[bB][oO][bB].*")) "OR"
              (FilterExpression.leaf "e" "REGEX" ".*[bB][oO][bB].*"))
      ∧ buildFilterExpression asciiHost (some [some "displayName"]) (some "Bob")
        ≠ some (FilterExpression.leaf "title" "REGEX" ".*[bB][oO][bB].*") := by
  decide

/-- C5: buildFilterExpression returns null whenever the filter is null or the empty string, for
every fields list, and whenever fields is empty or absent, for every filter; so
buildFilter([], "Bob") and buildFilter(["name"], "") are both null. -/
theorem buildFilterExpression_null (host : Host) (fields : Option (List (Option String)))
    (filter : Option String) :
    buildFilterExpression host fields none = none
      ∧ buildFilterExpression host fields (some "") = none
      ∧ buildFilterExpression host none filter = none
      ∧ buildFilterExpression host (some []) filter = none
      ∧ buildFilterExpression host (some []) (some "Bob") = none
      ∧ buildFilterExpression host (some [some "name"]) (some "") = none := by
  refine ⟨?_, ?_, ?_, ?_, ?_, ?_⟩ <;>
    simp [buildFilterExpression, truthy]

/-! ## Option normalisation (C9) and the single-flight guard (C10) -/

/-- C9: for every options object, getCurrentPosition (when it dispatches, that is when no
listener is registered under "global") and watchPosition forward exactly one request whose
maximumAge and timeout arguments are the normalised values, where the forwarded timeout is 0
when options.timeout < 0 and the forwarded maximumAge is 0 when options.maximumAge is absent,
zero or negative, and is options.maximumAge when that is positive. -/
theorem forwarded_options (uuid : String) (st : Geolocation) (s f : Option Callback)
    (o : PositionOptions) :
    ∃ maximumAge t1 t2 : Int,
      (getListener st.listeners "global" = none →
        (getCurrentPosition st s f (some o)).execLog = st.execLog ++
          [{ success := none, fail := f, service := "Geolocation",
             action := "getCurrentPosition",
             args := [.str "global", .num maximumAge, .num t1,
                      .bool (enableHighAccuracyOf (some o))] }])
      ∧ (watchPosition uuid st s f (some o)).1.execLog = st.execLog ++
          [{ success := none, fail := f, service := "Geolocation",
             action := "watchPosition",
             args := [.str uuid, .num maximumAge, .num t2,
                      .bool (enableHighAccuracyOf (some o))] }]
      ∧ (∀ t, o.timeout = some t → t < 0 → t1 = 0 ∧ t2 = 0)
      ∧ (o.maximumAge = none → maximumAge = 0)
      ∧ (∀ m, o.maximumAge = some m → m ≤ 0 → maximumAge = 0)
      ∧ (∀ m, o.maximumAge = some m → 0 < m → maximumAge = m) := by
  refine ⟨maximumAgeOf (some o), timeoutOf 3600000 (some o), timeoutOf 10000 (some o),
    ?_, ?_, ?_, ?_, ?_, ?_⟩
  · intro h
    simp [getCurrentPosition, h]
  · simp [watchPosition]
  · intro t ht hneg
    have hne : t ≠ 0 := by omega
    simp [timeoutOf, ht, hne, hneg]
  · intro h
    simp [maximumAgeOf, h]
  · intro m hm hle
    have : ¬ (0 < m) := by omega
    simp [maximumAgeOf, hm, this]
  · intro m hm hpos
    have hne : m ≠ 0 := by omega
    simp [maximumAgeOf, hm, hne, hpos]

/-- Witness for C9: options with timeout -5 and maximumAge 250, in the initial state. -/
theorem forwarded_options_witness :
    ∃ maximumAge t1 t2 : Int,
      (getCurrentPosition Geolocation.new none none
          (some { maximumAge := some 250, timeout := some (-5), enableHighAccuracy := none })).execLog
        = [{ success := none, fail := none, service := "Geolocation",
             action := "getCurrentPosition",
             args := [.str "global", .num maximumAge, .num t1, .bool false] }]
      ∧ t1 = 0 ∧ t2 = 0 ∧ maximumAge = 250 := by
  obtain ⟨ma, t1, t2, h1, _, h3, _, _, h6⟩ :=
    forwarded_options "w1" Geolocation.new none none
      { maximumAge := some 250, timeout := some (-5), enableHighAccuracy := none }
  have ht := h3 (-5) rfl (by decide)
  exact ⟨ma, t1, t2, h1 rfl, ht.1, ht.2, h6 250 rfl (by decide)⟩

/-- C10: in every state where a listener is registered under "global", getCurrentPosition
calls the error callback exactly once, with a PositionError whose code is TIMEOUT (3), sends no
request to the native layer, and leaves the listener map (so also the entry under "global")
and lastPosition unchanged. -/
theorem getCurrentPosition_rejected (st : Geolocation) (first : Listener)
    (h : getListener st.listeners "global" = some first)
    (success : Option Callback) (fail : Callback) (options : Option PositionOptions) :
    (getCurrentPosition st success (some fail) options).calls
        = st.calls ++ [(fail, CallbackArg.error { code := 3, message := stillWaiting })]
      ∧ PositionError.TIMEOUT = 3
      ∧ (getCurrentPosition st success (some fail) options).execLog = st.execLog
      ∧ (getCurrentPosition st success (some fail) options).listeners = st.listeners
      ∧ getListener (getCurrentPosition st success (some fail) options).listeners "global"
          = some first
      ∧ (getCurrentPosition st success (some fail) options).lastPosition = st.lastPosition := by
  simp [getCurrentPosition, h, callCallback, PositionError.TIMEOUT]

/-- Witness for C10: a second request while the first is outstanding. -/
theorem getCurrentPosition_rejected_witness :
    (getCurrentPosition waitingState (some (okCallback 3)) (some (okCallback 4)) none).calls
        = [(okCallback 4, CallbackArg.error { code := 3, message := stillWaiting })]
      ∧ (getCurrentPosition waitingState (some (okCallback 3)) (some (okCallback 4)) none).listeners
        = waitingState.listeners :=
  have h := getCurrentPosition_rejected waitingState
    { success := some (okCallback 1), fail := some (okCallback 2) } (by decide)
    (some (okCallback 3)) (okCallback 4) none
  ⟨h.1, h.2.2.2.1⟩

/-! ## Emails (C6) -/

/-- C6: for every contact saved into a new blank record, email1, email2 and email3 hold, in
order, the values of the first three non-empty entries of contact.emails, the slots beyond the
number of non-empty entries stay "", and every later entry is dropped (the written record is
the one written for the contact that has only the first three non-empty entries); with three
or more non-empty emails, so also with four, all three email slots are non-empty. -/
theorem saveToDevice_emails (host : Host) (c : Contact)
    (hnew : recordFor host c = newBBContact) :
    ∃ bb, saveToDevice host (some c) = some bb
      ∧ bb.email1 = some ((nonEmptyValues (arrayOf c.emails)).getD 0 "")
      ∧ bb.email2 = some ((nonEmptyValues (arrayOf c.emails)).getD 1 "")
      ∧ bb.email3 = some ((nonEmptyValues (arrayOf c.emails)).getD 2 "")
      ∧ saveToDevice host (some (firstThreeEmails c)) = some bb
      ∧ (3 ≤ (nonEmptyValues (arrayOf c.emails)).length →
          truthy bb.email1 = true ∧ truthy bb.email2 = true ∧ truthy bb.email3 = true) := by
  obtain ⟨h1, h2, h3⟩ := emailLoop_blank (arrayOf c.emails)
  refine ⟨_, rfl, ?_, ?_, ?_, ?_, ?_⟩
  · rw [hnew, copyToBlackBerry_eq]
    exact h1
  · rw [hnew, copyToBlackBerry_eq]
    exact h2
  · rw [hnew, copyToBlackBerry_eq]
    exact h3
  · have hrec : recordFor host (firstThreeEmails c) = newBBContact := hnew
    obtain ⟨k1, k2, k3⟩ := emailLoop_blank
      (((arrayOf c.emails).filter (fun e => (entryValue e).isSome)).take 3)
    rw [nonEmptyValues_take_filter] at k1 k2 k3
    rw [getD_take_of_lt _ _ _ (by decide)] at k1 k2 k3
    simp only [saveToDevice, hrec, hnew, copyToBlackBerry_eq, firstThreeEmails, arrayOf,
      Option.getD_some] at *
    rw [h1, h2, h3, k1, k2, k3]
  · intro hlen
    have hne : ∀ x ∈ nonEmptyValues (arrayOf c.emails), x ≠ "" :=
      fun x hx => nonEmptyValues_ne_empty hx
    rw [hnew, copyToBlackBerry_eq]
    simp only [h1, h2, h3, truthy_some]
    exact ⟨getD_ne_empty_of_lt hne (by omega), getD_ne_empty_of_lt hne (by omega),
      getD_ne_empty_of_lt hne (by omega)⟩

/-- Witness for C6: a contact with four non-empty emails, saved into a blank record. -/
theorem saveToDevice_emails_witness :
    ∃ bb, saveToDevice asciiHost (some fourEmails) = some bb
      ∧ bb.email1 = some "a@x.org" ∧ bb.email2 = some "b@x.org" ∧ bb.email3 = some "c@x.org" := by
  obtain ⟨bb, h, h1, h2, h3, _, _⟩ := saveToDevice_emails asciiHost fourEmails (by decide)
  exact ⟨bb, h, h1, h2, h3⟩

/-! ## Phone numbers (C7, C8) -/

/-- C7, as stated, fails: for the contact with the two "mobile" numbers "111" and "222" saved
to a blank record, the second number is not dropped, it is in otherPhone. -/
theorem saveToDevice_mobile_counterexample :
    ¬ (∃ bb, saveToDevice asciiHost (some twoMobiles) = some bb
        ∧ bb.homePhone ≠ some "222" ∧ bb.homePhone2 ≠ some "222"
        ∧ bb.workPhone ≠ some "222" ∧ bb.workPhone2 ≠ some "222"
        ∧ bb.mobilePhone ≠ some "222" ∧ bb.faxPhone ≠ some "222"
        ∧ bb.pagerPhone ≠ some "222" ∧ bb.otherPhone ≠ some "222") := by
  decide

/-- C7, amended: a non-empty phone number of type "mobile" is written to mobilePhone if that
slot is empty; otherwise it falls through to otherPhone, which takes it if it is empty, and
it is dropped only when otherPhone is filled too; the same holds for "fax" with faxPhone and
"pager" with pagerPhone.  For a contact saved to a blank record the three slots hold the first
non-empty number of their type, and when the phone list is two non-empty "mobile" numbers the
first is in mobilePhone and the second in otherPhone. -/
theorem saveToDevice_single_slots (host : Host) (c : Contact)
    (hnew : recordFor host c = newBBContact) :
    (∀ (bb : BBContact) (n : String), n ≠ "" →
        phoneStep bb (some { type := some "mobile", value := some n }) =
          if bb.mobilePhone = some "" then { bb with mobilePhone := some n }
          else if bb.otherPhone = some "" then { bb with otherPhone := some n }
          else bb)
      ∧ (∀ (bb : BBContact) (n : String), n ≠ "" →
        phoneStep bb (some { type := some "fax", value := some n }) =
          if bb.faxPhone = some "" then { bb with faxPhone := some n }
          else if bb.otherPhone = some "" then { bb with otherPhone := some n }
          else bb)
      ∧ (∀ (bb : BBContact) (n : String), n ≠ "" →
        phoneStep bb (some { type := some "pager", value := some n }) =
          if bb.pagerPhone = some "" then { bb with pagerPhone := some n }
          else if bb.otherPhone = some "" then { bb with otherPhone := some n }
          else bb)
      ∧ ∃ r, saveToDevice host (some c) = some r
        ∧ r.mobilePhone = some ((valuesOfType "mobile" (arrayOf c.phoneNumbers)).getD 0 "")
        ∧ r.faxPhone = some ((valuesOfType "fax" (arrayOf c.phoneNumbers)).getD 0 "")
        ∧ r.pagerPhone = some ((valuesOfType "pager" (arrayOf c.phoneNumbers)).getD 0 "")
        ∧ (∀ a b : String, a ≠ "" → b ≠ "" →
            c.phoneNumbers = some [some { type := some "mobile", value := some a },
                                   some { type := some "mobile", value := some b }] →
            r.mobilePhone = some a ∧ r.otherPhone = some b) := by
  refine ⟨?_, ?_, ?_, ?_⟩
  · intro bb n hn
    rw [phoneStep_of_value bb _ rfl ((truthy_some n).2 hn)]
    by_cases h : bb.mobilePhone = some "" <;> simp [h]
  · intro bb n hn
    rw [phoneStep_of_value bb _ rfl ((truthy_some n).2 hn)]
    by_cases h : bb.faxPhone = some "" <;> simp [h]
  · intro bb n hn
    rw [phoneStep_of_value bb _ rfl ((truthy_some n).2 hn)]
    by_cases h : bb.pagerPhone = some "" <;> simp [h]
  · obtain ⟨h1, h2, h3⟩ := singleLoop_blank (arrayOf c.phoneNumbers)
    refine ⟨_, rfl, ?_, ?_, ?_, ?_⟩
    · rw [hnew, copyToBlackBerry_eq]
      exact h1
    · rw [hnew, copyToBlackBerry_eq]
      exact h2
    · rw [hnew, copyToBlackBerry_eq]
      exact h3
    · intro a b ha hb hc
      rw [hnew, copyToBlackBerry_eq]
      simp only [hc, arrayOf, Option.getD_some, List.foldl_cons, List.foldl_nil]
      rw [phoneStep_of_value newBBContact { type := some "mobile", value := some a } rfl
          ((truthy_some a).2 ha),
        phoneStep_of_value _ { type := some "mobile", value := some b } rfl
          ((truthy_some b).2 hb)]
      simp [newBBContact, ha]

/-- Witness for C7: the contact with the two "mobile" numbers "111" and "222". -/
theorem saveToDevice_single_slots_witness :
    ∃ r, saveToDevice asciiHost (some twoMobiles) = some r
      ∧ r.mobilePhone = some "111" ∧ r.otherPhone = some "222" := by
  obtain ⟨_, _, _, r, hr, _, _, _, h⟩ :=
    saveToDevice_single_slots asciiHost twoMobiles (by decide)
  exact ⟨r, hr, h "111" "222" (by decide) (by decide) rfl⟩

/-- C8: for every contact saved into a new blank record, the first non-empty "home" number in
list order is written to homePhone, the second to homePhone2, and a "home" number is written
to no other slot (the six other phone slots are those written for the contact without its
"home" entries), so any further "home" number is in no slot; likewise for "work" with
workPhone and workPhone2. -/
theorem saveToDevice_home_work (host : Host) (c : Contact)
    (hnew : recordFor host c = newBBContact) :
    ∃ bb noHome noWork,
      saveToDevice host (some c) = some bb
      ∧ saveToDevice host (some (withoutPhoneType "home" c)) = some noHome
      ∧ saveToDevice host (some (withoutPhoneType "work" c)) = some noWork
      ∧ bb.homePhone = some ((valuesOfType "home" (arrayOf c.phoneNumbers)).getD 0 "")
      ∧ bb.homePhone2 = some ((valuesOfType "home" (arrayOf c.phoneNumbers)).getD 1 "")
      ∧ sameNonHome bb noHome
      ∧ bb.workPhone = some ((valuesOfType "work" (arrayOf c.phoneNumbers)).getD 0 "")
      ∧ bb.workPhone2 = some ((valuesOfType "work" (arrayOf c.phoneNumbers)).getD 1 "")
      ∧ sameNonWork bb noWork := by
  obtain ⟨h1, h2⟩ := homeLoop_blank (arrayOf c.phoneNumbers)
  obtain ⟨w1, w2⟩ := workLoop_blank (arrayOf c.phoneNumbers)
  have hrecH : recordFor host (withoutPhoneType "home" c) = newBBContact := hnew
  have hrecW : recordFor host (withoutPhoneType "work" c) = newBBContact := hnew
  refine ⟨_, _, _, rfl, rfl, rfl, ?_, ?_, ?_, ?_, ?_, ?_⟩
  · rw [hnew, copyToBlackBerry_eq]
    exact h1
  · rw [hnew, copyToBlackBerry_eq]
    exact h2
  · rw [hnew, hrecH, copyToBlackBerry_eq, copyToBlackBerry_eq]
    exact phoneLoop_nonHome (arrayOf c.phoneNumbers) newBBContact newBBContact
      ⟨rfl, rfl, rfl, rfl, rfl, rfl⟩
  · rw [hnew, copyToBlackBerry_eq]
    exact w1
  · rw [hnew, copyToBlackBerry_eq]
    exact w2
  · rw [hnew, hrecW, copyToBlackBerry_eq, copyToBlackBerry_eq]
    exact phoneLoop_nonWork (arrayOf c.phoneNumbers) newBBContact newBBContact
      ⟨rfl, rfl, rfl, rfl, rfl, rfl⟩

/-- Witness for C8: a contact with three "home" and two "work" numbers. -/
theorem saveToDevice_home_work_witness :
    ∃ bb, saveToDevice asciiHost (some manyPhones) = some bb
      ∧ bb.homePhone = some "1" ∧ bb.homePhone2 = some "3"
      ∧ bb.workPhone = some "2" ∧ bb.workPhone2 = some "6" := by
  obtain ⟨bb, _, _, h, _, _, h1, h2, _, w1, w2, _⟩ :=
    saveToDevice_home_work asciiHost manyPhones (by decide)
  exact ⟨bb, h, h1, h2, w1, w2⟩

/-! ## Round trip through the vendor record (C1) -/

/-- C1, as stated, fails: the contact bobSmith is within all the bounds and is saved into a
new blank record, yet the contact read back does not reproduce every field (its address has
street "1 Main St, " and a re-synthesised formatted text). -/
theorem saveToDevice_roundtrip_counterexample :
    withinSlots bobSmith ∧ recordFor asciiHost bobSmith = newBBContact
      ∧ ¬ (∃ r, Contact.fromBlackBerryContact (saveToDevice asciiHost (some bobSmith)) = some r
            ∧ r.name = bobSmith.name ∧ r.displayName = bobSmith.displayName
            ∧ r.note = bobSmith.note ∧ r.phoneNumbers = bobSmith.phoneNumbers
            ∧ r.emails = bobSmith.emails ∧ r.addresses = bobSmith.addresses
            ∧ r.organizations = bobSmith.organizations ∧ r.urls = bobSmith.urls
            ∧ r.birthday = bobSmith.birthday ∧ r.anniversary = bobSmith.anniversary) := by
  decide

/-- C1, amended: for every Contact within the bounds, saved by saveToDevice into a new blank
record, Contact.fromBlackBerryContact applied to the written record gives back displayName
and note (as "" when absent), birthday and anniversary when they are Date objects (a date
string comes back as the Date parsed from it), the given and family name (as "" when absent)
with a formatted name re-joined from them, the values of the non-empty emails and urls in
order but without their type, the non-empty phone numbers regrouped in the fixed slot order
home, work, mobile, fax, pager, other with any other type relabelled "other", every address
converted to the vendor shape and back, and name and title of the organization. -/
theorem saveToDevice_roundtrip (host : Host) (c : Contact) (hin : withinSlots c)
    (hnew : recordFor host c = newBBContact) :
    ∃ r, Contact.fromBlackBerryContact (saveToDevice host (some c)) = some r
      ∧ r.displayName = some (orEmpty c.displayName)
      ∧ r.note = some (orEmpty c.note)
      ∧ r.name = some (roundName c.name)
      ∧ r.phoneNumbers = some (roundPhones (arrayOf c.phoneNumbers))
      ∧ r.emails = some (roundFields (arrayOf c.emails))
      ∧ r.urls = some (roundFields (arrayOf c.urls))
      ∧ r.addresses = some (roundAddresses (arrayOf c.addresses))
      ∧ r.organizations = some (roundOrganizations (arrayOf c.organizations))
      ∧ r.birthday = roundDate host c.birthday
      ∧ r.anniversary = roundDate host c.anniversary
      ∧ (∀ s, c.displayName = some s → r.displayName = c.displayName)
      ∧ (∀ s, c.note = some s → r.note = c.note)
      ∧ (∀ d, c.birthday = some (DateValue.date d) → r.birthday = c.birthday)
      ∧ (∀ d, c.anniversary = some (DateValue.date d) → r.anniversary = c.anniversary) := by
  obtain ⟨hE, hA, hH, hW, hM, hF, hP, hO, hOrg, hU⟩ := hin
  have hs : saveToDevice host (some c) = some (copyToBlackBerry host c newBBContact) := by
    simp [saveToDevice, hnew]
  rw [hs, copyToBlackBerry_eq]
  obtain ⟨e1, e2, e3⟩ := emailLoop_blank (arrayOf c.emails)
  obtain ⟨h1, h2⟩ := homeLoop_blank (arrayOf c.phoneNumbers)
  obtain ⟨w1, w2⟩ := workLoop_blank (arrayOf c.phoneNumbers)
  obtain ⟨s1, s2, s3⟩ := singleLoop_blank (arrayOf c.phoneNumbers)
  have o1 := otherLoop_blank (arrayOf c.phoneNumbers) hM hF hP
  obtain ⟨a1, a2⟩ := addressLoop_slots (arrayOf c.addresses) newBBContact
  have u1 := urlLoop_empty (arrayOf c.urls) newBBContact rfl
  obtain ⟨g1, g2⟩ := orgLoop_empty (arrayOf c.organizations) newBBContact rfl
  have neN : ∀ (l : List (Option ContactField)), ∀ x ∈ nonEmptyValues l, x ≠ "" :=
    fun _ x hx => nonEmptyValues_ne_empty hx
  refine ⟨_, rfl, rfl, rfl, ?_, ?_, ?_, ?_, ?_, ?_, ?_, ?_, ?_, ?_, ?_, ?_⟩
  · cases hn : c.name <;> simp [roundName, jsToString, newBBContact, orEmpty_none]
  · have pH := pushField_one (some "home") (valuesOfType "home" (arrayOf c.phoneNumbers))
      (fun x hx => valuesWhere_ne_empty hx) hH
    have pW := pushField_one (some "work") (valuesOfType "work" (arrayOf c.phoneNumbers))
      (fun x hx => valuesWhere_ne_empty hx) hW
    have pM := pushField_one (some "mobile") (valuesOfType "mobile" (arrayOf c.phoneNumbers))
      (fun x hx => valuesWhere_ne_empty hx) hM
    have pF := pushField_one (some "fax") (valuesOfType "fax" (arrayOf c.phoneNumbers))
      (fun x hx => valuesWhere_ne_empty hx) hF
    have pP := pushField_one (some "pager") (valuesOfType "pager" (arrayOf c.phoneNumbers))
      (fun x hx => valuesWhere_ne_empty hx) hP
    have pO := pushField_one (some "other") (valuesOther (arrayOf c.phoneNumbers))
      (fun x hx => valuesWhere_ne_empty hx) hO
    simp only [h1, h2, w1, w2, s1, s2, s3, o1, roundPhones]
    rw [pH.1, pH.2, pW.1, pW.2, pM.1, pF.1, pP.1, pO.1]
    simp
  · simp only [e1, e2, e3, roundFields]
    rw [pushField_three _ _ (neN _) hE]
  · simp only [u1, roundFields]
    rw [(pushField_one _ _ (neN _) hU).1]
  · simp only [a1, a2, roundAddresses]
    rcases hN : (arrayOf c.addresses).filterMap id with _ | ⟨x, _ | ⟨y, _ | ⟨z, rest⟩⟩⟩
    · simp [newBBContact]
    · simp [newBBContact]
    · simp [newBBContact]
    · rw [hN] at hA
      simp at hA
  · simp only [g1, g2, roundOrganizations]
    rcases hN : (arrayOf c.organizations).filterMap id with _ | ⟨x, _ | ⟨y, rest⟩⟩
    · simp [newBBContact, truthy]
    · by_cases hx : (truthy x.name || truthy x.title) = true
      · simp [hx, truthy_orEmpty]
      · simp [hx, truthy_orEmpty]
    · rw [hN] at hOrg
      simp at hOrg
  · cases hb : dateTruthy c.birthday <;>
      simp [roundDate, hb, newBBContact, Option.map_map, Function.comp_def]
  · cases hb : dateTruthy c.anniversary <;>
      simp [roundDate, hb, newBBContact, Option.map_map, Function.comp_def]
  · intro s hs
    simp [hs, orEmpty_some]
  · intro s hs
    simp [hs, orEmpty_some]
  · intro d hd
    simp [hd, dateTruthy, toJSDate]
  · intro d hd
    simp [hd, dateTruthy, toJSDate]

/-- Witness for C1: the amended round trip at the contact bobSmith. -/
theorem saveToDevice_roundtrip_witness :
    ∃ r, Contact.fromBlackBerryContact (saveToDevice asciiHost (some bobSmith)) = some r
      ∧ r.displayName = bobSmith.displayName ∧ r.note = bobSmith.note
      ∧ r.birthday = bobSmith.birthday
      ∧ r.addresses = some (roundAddresses [some sampleAddress]) := by
  obtain ⟨r, hr, _, _, _, _, _, _, ha, _, _, _, hd, hn, hb, _⟩ :=
    saveToDevice_roundtrip asciiHost bobSmith (by decide) (by decide)
  exact ⟨r, hr, hd "Bob Smith" rfl, hn "friend" rfl, hb { time := some 0 } rfl, ha⟩

/-! ## Watches and native callbacks (C11, C12, C13, C14) -/

/-- C11: for every shim state and every id, clearWatch(id) results in a listener map without
an entry for id and otherwise unchanged (lastPosition unchanged too), after sending one stop
request; calling clearWatch(id) a second time leaves the listener map and lastPosition as they
were after the first call, whether or not id was ever registered. -/
theorem clearWatch_removes (st : Geolocation) (id : String) :
    getListener (st.clearWatch id).listeners id = none
      ∧ (∀ k, k ≠ id → getListener (st.clearWatch id).listeners k = getListener st.listeners k)
      ∧ (st.clearWatch id).listeners = st.listeners.filter (fun kv => kv.1 != id)
      ∧ (st.clearWatch id).lastPosition = st.lastPosition
      ∧ (st.clearWatch id).execLog = st.execLog ++ [stopRequest id]
      ∧ ((st.clearWatch id).clearWatch id).listeners = (st.clearWatch id).listeners
      ∧ ((st.clearWatch id).clearWatch id).lastPosition = (st.clearWatch id).lastPosition := by
  refine ⟨?_, ?_, rfl, rfl, rfl, ?_, rfl⟩
  · exact getListener_deleteListener_self st.listeners id
  · intro k hk
    exact getListener_deleteListener_ne st.listeners id k hk
  · exact deleteListener_idem st.listeners id

/-- Witness for C11: clearing the watch "w1" keeps the entry under "global", and clearing an id
that was never registered changes no entry. -/
theorem clearWatch_removes_witness :
    getListener (throwingState.clearWatch "w1").listeners "w1" = none
      ∧ getListener (throwingState.clearWatch "w1").listeners "global"
          = getListener throwingState.listeners "global"
      ∧ getListener (throwingState.clearWatch "nobody").listeners "w1"
          = getListener throwingState.listeners "w1" :=
  ⟨(clearWatch_removes throwingState "w1").1,
    (clearWatch_removes throwingState "w1").2.1 "global" (by decide),
    (clearWatch_removes throwingState "nobody").2.1 "w1" (by decide)⟩

/-- C12: watchPosition returns exactly the id produced by the unique-id generator for that
call, registers the callback pair under that id without touching any other listener entry, and
dispatches a "watchPosition" request whose first argument is the same id; hence a second call
for which the generator yields a different id returns a different id and both callback pairs
remain registered. -/
theorem watchPosition_registers (uuid : String) (st : Geolocation)
    (s f : Option Callback) (o : Option PositionOptions) :
    (watchPosition uuid st s f o).2 = uuid
      ∧ getListener (watchPosition uuid st s f o).1.listeners uuid
          = some { success := s, fail := f }
      ∧ (∀ k, k ≠ uuid →
          getListener (watchPosition uuid st s f o).1.listeners k = getListener st.listeners k)
      ∧ (∃ rest, (watchPosition uuid st s f o).1.execLog = st.execLog ++
          [{ success := none, fail := f, service := "Geolocation", action := "watchPosition",
             args := ExecArg.str uuid :: rest }])
      ∧ (∀ (uuid2 : String) (s2 f2 : Option Callback) (o2 : Option PositionOptions),
          uuid2 ≠ uuid →
          (watchPosition uuid2 (watchPosition uuid st s f o).1 s2 f2 o2).2
              ≠ (watchPosition uuid st s f o).2
            ∧ getListener
                (watchPosition uuid2 (watchPosition uuid st s f o).1 s2 f2 o2).1.listeners uuid
                = some { success := s, fail := f }
            ∧ getListener
                (watchPosition uuid2 (watchPosition uuid st s f o).1 s2 f2 o2).1.listeners uuid2
                = some { success := s2, fail := f2 }) := by
  refine ⟨rfl, ?_, ?_, ⟨_, rfl⟩, ?_⟩
  · exact getListener_setListener_self st.listeners uuid _
  · intro k hk
    exact getListener_setListener_ne st.listeners uuid k _ hk
  · intro uuid2 s2 f2 o2 hne
    refine ⟨hne, ?_, ?_⟩
    · have h1 := getListener_setListener_ne (watchPosition uuid st s f o).1.listeners uuid2 uuid
        { success := s2, fail := f2 } (fun e => hne e.symm)
      exact h1.trans (getListener_setListener_self st.listeners uuid _)
    · exact getListener_setListener_self _ uuid2 _

/-- Witness for C12: two watches with the ids "a" and "b" from the initial state. -/
theorem watchPosition_registers_witness :
    (watchPosition "b" (watchPosition "a" Geolocation.new (some (okCallback 1)) none none).1
        (some (okCallback 2)) none none).2 ≠ "a"
      ∧ getListener
          (watchPosition "b" (watchPosition "a" Geolocation.new (some (okCallback 1)) none none).1
            (some (okCallback 2)) none none).1.listeners "a"
          = some { success := some (okCallback 1), fail := none } :=
  have h := (watchPosition_registers "a" Geolocation.new (some (okCallback 1)) none none).2.2.2.2
    "b" (some (okCallback 2)) none none (by decide)
  ⟨h.1, h.2.1⟩

/-- C13: for every registered id and raw fix, the native callback success(id, rawFix) sets
lastPosition to the Position built from the fix, calls the success callback registered for id
once with that Position, returns without an exception, and afterwards has removed the listener
entry when id is "global" and has kept the listener map as it was when id is a watch id. -/
theorem success_delivers (st : Geolocation) (id : String) (entry : Listener) (cb : Callback)
    (p : RawFix) (hreg : getListener st.listeners id = some entry)
    (hcb : entry.success = some cb) :
    (st.success id (some { message := some p })).1.lastPosition = some (positionOf p)
      ∧ (st.success id (some { message := some p })).1.calls
          = st.calls ++ [(cb, CallbackArg.position (positionOf p))]
      ∧ (st.success id (some { message := some p })).2 = none
      ∧ (id = "global" →
          getListener (st.success id (some { message := some p })).1.listeners "global" = none
            ∧ (st.success id (some { message := some p })).1.listeners
                = deleteListener st.listeners "global")
      ∧ (id ≠ "global" →
          (st.success id (some { message := some p })).1.listeners = st.listeners
            ∧ getListener (st.success id (some { message := some p })).1.listeners id
                = some entry) := by
  have hl : (st.success id (some { message := some p })).1.listeners
      = if id = "global" then deleteListener st.listeners "global" else st.listeners := by
    simp only [Geolocation.success, hreg, callCallback, hcb, catchAndLog, cleanupGlobal]
    cases cb.throws <;> by_cases hg : id = "global" <;> simp [hg]
  refine ⟨?_, ?_, rfl, ?_, ?_⟩
  · simp only [Geolocation.success, hreg, callCallback, hcb, catchAndLog, cleanupGlobal,
      positionOf]
    cases cb.throws <;> by_cases hg : id = "global" <;> simp [hg]
  · simp only [Geolocation.success, hreg, callCallback, hcb, catchAndLog, cleanupGlobal,
      positionOf]
    cases cb.throws <;> by_cases hg : id = "global" <;> simp [hg]
  · intro hg
    rw [hl, if_pos hg]
    exact ⟨getListener_deleteListener_self st.listeners "global", rfl⟩
  · intro hg
    rw [hl, if_neg hg]
    exact ⟨rfl, hreg⟩

/-- Witness for C13: a fix delivered to the outstanding one-shot request. -/
theorem success_delivers_witness :
    (waitingState.success "global" (some { message := some sampleFix })).1.lastPosition
        = some (positionOf sampleFix)
      ∧ (waitingState.success "global" (some { message := some sampleFix })).1.calls
        = [(okCallback 1, CallbackArg.position (positionOf sampleFix))]
      ∧ getListener
          (waitingState.success "global" (some { message := some sampleFix })).1.listeners
          "global" = none :=
  have h := success_delivers waitingState "global"
    { success := some (okCallback 1), fail := some (okCallback 2) } (okCallback 1) sampleFix
    (by decide) rfl
  ⟨h.1, h.2.1, (h.2.2.2.1 rfl).1⟩

/-- C14: for every id and every registered callback that throws, the native callbacks
success(id, ...) and fail(id, ...) call it, log a line and return without an exception, and
the one-shot cleanup still happens: after the call there is no listener entry under "global"
when id is "global". -/
theorem callbacks_swallow (st : Geolocation) (id : String) (entry : Listener)
    (p : RawFix) (e : RawError) (hreg : getListener st.listeners id = some entry) :
    (∀ cb : Callback, entry.success = some cb → cb.throws = true →
        (st.success id (some { message := some p })).2 = none
          ∧ (st.success id (some { message := some p })).1.calls
              = st.calls ++ [(cb, CallbackArg.position (positionOf p))]
          ∧ (st.success id (some { message := some p })).1.console
              = st.console ++ [successCallbackError]
          ∧ (id = "global" →
              getListener (st.success id (some { message := some p })).1.listeners "global"
                = none))
      ∧ (∀ cb : Callback, entry.fail = some cb → cb.throws = true →
        (st.fail id (some e)).2 = none
          ∧ (st.fail id (some e)).1.calls
              = st.calls ++ [(cb, CallbackArg.error { code := e.status, message := e.message })]
          ∧ (st.fail id (some e)).1.console = st.console ++ [errorCallbackError]
          ∧ (id = "global" → getListener (st.fail id (some e)).1.listeners "global" = none)) := by
  constructor
  · intro cb hS hts
    refine ⟨rfl, ?_, ?_, ?_⟩
    · simp only [Geolocation.success, hreg, callCallback, hS, hts, catchAndLog, cleanupGlobal,
        positionOf]
      by_cases hg : id = "global" <;> simp [hg]
    · simp only [Geolocation.success, hreg, callCallback, hS, hts, catchAndLog, cleanupGlobal]
      by_cases hg : id = "global" <;> simp [hg]
    · intro hg
      simp only [Geolocation.success, hreg, callCallback, hS, hts, catchAndLog, cleanupGlobal]
      simp only [hg, if_true]
      exact getListener_deleteListener_self _ "global"
  · intro cb hF htf
    refine ⟨rfl, ?_, ?_, ?_⟩
    · simp only [Geolocation.fail, hreg, callCallback, hF, htf, catchAndLog, cleanupGlobal]
      by_cases hg : id = "global" <;> simp [hg]
    · simp only [Geolocation.fail, hreg, callCallback, hF, htf, catchAndLog, cleanupGlobal]
      by_cases hg : id = "global" <;> simp [hg]
    · intro hg
      simp only [Geolocation.fail, hreg, callCallback, hF, htf, catchAndLog, cleanupGlobal]
      simp only [hg, if_true]
      exact getListener_deleteListener_self _ "global"

/-- Witness for C14: throwing callbacks registered under "global". -/
theorem callbacks_swallow_witness :
    (throwingState.success "global" (some { message := some sampleFix })).2 = none
      ∧ getListener
          (throwingState.success "global" (some { message := some sampleFix })).1.listeners
          "global" = none
      ∧ (throwingState.fail "global" (some { status := 2, message := "no fix" })).2 = none
      ∧ getListener
          (throwingState.fail "global" (some { status := 2, message := "no fix" })).1.listeners
          "global" = none :=
  have h := callbacks_swallow throwingState "global"
    { success := some (throwingCallback 1), fail := some (throwingCallback 2) }
    sampleFix { status := 2, message := "no fix" } (by decide)
  have hs := h.1 (throwingCallback 1) rfl rfl
  have hf := h.2 (throwingCallback 2) rfl rfl
  ⟨hs.1, hs.2.2.2 rfl, hf.1, hf.2.2.2 rfl⟩

/-! ## Reading a vendor record (C15, C16) -/

/-- C15: for every vendor record, the phoneNumbers list of Contact.fromBlackBerryContact(record)
is exactly the sub-sequence of [(home, homePhone), (home, homePhone2), (work, workPhone),
(work, workPhone2), (mobile, mobilePhone), (fax, faxPhone), (pager, pagerPhone),
(other, otherPhone)] whose slot value is non-empty, in that order, each as a field with that
type and value. -/
theorem fromBlackBerryContact_phoneNumbers (bb : BBContact) :
    ∃ r, Contact.fromBlackBerryContact (some bb) = some r
      ∧ r.phoneNumbers = some (((phoneSlots bb).filter (fun tv => truthy tv.2)).map
          (fun tv => some ({ type := some tv.1, value := tv.2 } : ContactField))) := by
  refine ⟨_, rfl, ?_⟩
  simp only [phoneSlots, filter_map_phoneSlot, List.filter_nil, List.map_nil, List.append_nil,
    List.append_assoc]

/-- C16: for every vendor address record, the formatted field of
ContactAddress.fromBlackBerryAddress(record) is address1 + ", " + address2 + ", " + city + ", "
+ stateProvince + ", " + zipPostal + ", " + country with absent fields taken as "", that is
the six segments joined with ", "; empty segments keep their separator, so the text has
exactly five separators beyond the field values (five more commas, ten more characters). -/
theorem fromBlackBerryAddress_formatted (b : BBAddress) :
    ∃ r formatted, ContactAddress.fromBlackBerryAddress (some b) = some r
      ∧ r.formatted = some formatted
      ∧ formatted = orEmpty b.address1 ++ ", " ++ orEmpty b.address2 ++ ", " ++ orEmpty b.city
          ++ ", " ++ orEmpty b.stateProvince ++ ", " ++ orEmpty b.zipPostal ++ ", "
          ++ orEmpty b.country
      ∧ formatted = ", ".intercalate (addressSegments b)
      ∧ commas formatted = ((addressSegments b).map commas).sum + 5
      ∧ formatted.length = ((addressSegments b).map String.length).sum + 10 := by
  have hsep : ", ".length = 2 := rfl
  have hc : ", ".toList.count ',' = 1 := rfl
  refine ⟨_, _, rfl, rfl, rfl, ?_, ?_, ?_⟩
  · simp [addressSegments, String.intercalate, String.intercalate.go, String.append_assoc]
  · simp only [commas, addressSegments, String.toList, String.data_append, List.count_append,
      List.map_cons, List.map_nil, List.sum_cons, List.sum_nil]
    have hc2 : List.count ',' ", ".data = 1 := hc
    rw [hc2]
    omega
  · simp only [addressSegments, String.length_append, hsep, List.map_cons, List.map_nil,
      List.sum_cons, List.sum_nil]
    omega

/-! ## Writing a vendor record (C17, C18, C19) and the lookup by uid (C20) -/

/-- C17: saveToDevice preserves the invariant that no text slot is null: if firstName,
lastName, title, note, email1..3, the eight phone slots, webpage, company and jobTitle of the
record being written are all non-null before the call (as in a blank record), then for every
contact, whatever is null or absent in it, all of them are non-null after the call. -/
theorem saveToDevice_noNullText (host : Host) (c : Contact)
    (hrec : noNullText (recordFor host c)) :
    noNullText newBBContact
      ∧ ∃ bb, saveToDevice host (some c) = some bb ∧ noNullText bb := by
  refine ⟨by decide, _, rfl, ?_⟩
  obtain ⟨f1, f2, f3, f4, e1, e2, e3, p1, p2, p3, p4, p5, p6, p7, p8, u1, o1, o2⟩ := hrec
  obtain ⟨k1, k2, k3⟩ := emailLoop_nonNull (arrayOf c.emails) (recordFor host c) e1 e2 e3
  obtain ⟨q1, q2, q3, q4, q5, q6, q7, q8⟩ := phoneLoop_nonNull (arrayOf c.phoneNumbers)
    (recordFor host c) ⟨p1, p2, p3, p4, p5, p6, p7, p8⟩
  have w1 := urlLoop_nonNull (arrayOf c.urls) (recordFor host c) u1
  obtain ⟨g1, g2⟩ := orgLoop_nonNull (arrayOf c.organizations) (recordFor host c) o1 o2
  rw [copyToBlackBerry_eq]
  refine ⟨?_, ?_, rfl, rfl, k1, k2, k3, q1, q2, q3, q4, q5, q6, q7, q8, w1, g1, g2⟩
  · cases hn : c.name with
    | none => exact f1
    | some n => rfl
  · cases hn : c.name with
    | none => exact f2
    | some n => rfl

/-- Witness for C17: a contact with every property absent, saved over a stored record. -/
theorem saveToDevice_noNullText_witness :
    ∃ bb, saveToDevice (storeHost [storedBob]) (some namelessUpdate) = some bb
      ∧ noNullText bb :=
  (saveToDevice_noNullText (storeHost [storedBob]) namelessUpdate (by decide)).2

/-- C18, as stated, fails for an existing record: the contact namelessUpdate has no name and
its id finds the stored record of Bob Smith, and the written record still has the first name
"Bob" and the last name "Smith". -/
theorem saveToDevice_noName_counterexample :
    namelessUpdate.name = none
      ∧ recordFor (storeHost [storedBob]) namelessUpdate = storedBob
      ∧ ¬ (∃ bb, saveToDevice (storeHost [storedBob]) (some namelessUpdate) = some bb
            ∧ bb.firstName = some "" ∧ bb.lastName = some "") := by
  decide

/-- C18, amended: for every contact without a name, the written record keeps the firstName and
lastName of the record being written: they are the empty string when the contact is saved to
a new blank record, and the stored names when it is saved to an existing record found by
contact.id. -/
theorem saveToDevice_noName (host : Host) (c : Contact) (hn : c.name = none) :
    ∃ bb, saveToDevice host (some c) = some bb
      ∧ bb.firstName = (recordFor host c).firstName
      ∧ bb.lastName = (recordFor host c).lastName
      ∧ (recordFor host c = newBBContact → bb.firstName = some "" ∧ bb.lastName = some "") := by
  refine ⟨_, rfl, ?_, ?_, ?_⟩
  · rw [copyToBlackBerry_eq]
    simp only [hn]
  · rw [copyToBlackBerry_eq]
    simp only [hn]
  · intro hnew
    rw [hnew, copyToBlackBerry_eq]
    simp only [hn]
    exact ⟨rfl, rfl⟩

/-- Witness for C18: a contact without a name saved to a new record and to a stored one. -/
theorem saveToDevice_noName_witness :
    (∃ bb, saveToDevice asciiHost (some emptyContact) = some bb
        ∧ bb.firstName = some "" ∧ bb.lastName = some "")
      ∧ (∃ bb, saveToDevice (storeHost [storedBob]) (some namelessUpdate) = some bb
        ∧ bb.firstName = some "Bob" ∧ bb.lastName = some "Smith") := by
  obtain ⟨b1, h1, _, _, hb⟩ := saveToDevice_noName asciiHost emptyContact rfl
  obtain ⟨b2, h2, hf, hl, _⟩ := saveToDevice_noName (storeHost [storedBob]) namelessUpdate rfl
  have hr : recordFor (storeHost [storedBob]) namelessUpdate = storedBob := by decide
  rw [hr] at hf hl
  exact ⟨⟨b1, h1, hb (by decide)⟩, ⟨b2, h2, hf, hl⟩⟩

/-- C19: for every contact saved by saveToDevice, the first non-null address of
contact.addresses in list order is converted with toBlackBerryAddress and stored as
homeAddress, the second as workAddress, and every further address is dropped (the written
record is the one written for the contact that has only the first two); when the contact has
fewer than two such addresses the remaining address slot(s) of the record are left as they
were. -/
theorem saveToDevice_addresses (host : Host) (c : Contact) :
    ∃ bb, saveToDevice host (some c) = some bb
      ∧ (∀ a rest, (arrayOf c.addresses).filterMap id = a :: rest →
          bb.homeAddress = some a.toBlackBerryAddress)
      ∧ (∀ a a2 rest, (arrayOf c.addresses).filterMap id = a :: a2 :: rest →
          bb.workAddress = some a2.toBlackBerryAddress)
      ∧ (∀ a, (arrayOf c.addresses).filterMap id = [a] →
          bb.workAddress = (recordFor host c).workAddress)
      ∧ ((arrayOf c.addresses).filterMap id = [] →
          bb.homeAddress = (recordFor host c).homeAddress
            ∧ bb.workAddress = (recordFor host c).workAddress)
      ∧ saveToDevice host (some (firstTwoAddresses c)) = some bb := by
  obtain ⟨h1, h2⟩ := addressLoop_slots (arrayOf c.addresses) (recordFor host c)
  refine ⟨_, rfl, ?_, ?_, ?_, ?_, ?_⟩
  · intro a rest hN
    rw [copyToBlackBerry_eq]
    simp [h1, hN]
  · intro a a2 rest hN
    rw [copyToBlackBerry_eq]
    simp [h2, hN]
  · intro a hN
    rw [copyToBlackBerry_eq]
    simp [h2, hN]
  · intro hN
    rw [copyToBlackBerry_eq]
    simp [h1, h2, hN]
  · have hrec : recordFor host (firstTwoAddresses c) = recordFor host c := rfl
    obtain ⟨k1, k2⟩ := addressLoop_slots
      ((((arrayOf c.addresses).filterMap id).take 2).map some) (recordFor host c)
    obtain ⟨t1, t2⟩ := filterMap_take_two (arrayOf c.addresses)
    rw [t1] at k1
    rw [t2] at k2
    simp only [saveToDevice, hrec, copyToBlackBerry_eq, firstTwoAddresses, arrayOf,
      Option.getD_some] at *
    rw [h1, h2, k1, k2]

/-- Witness for C19: three addresses saved to a blank record. -/
theorem saveToDevice_addresses_witness :
    ∃ bb, saveToDevice asciiHost (some threeAddresses) = some bb
      ∧ bb.homeAddress = some sampleAddress.toBlackBerryAddress
      ∧ bb.workAddress
          = some ({ sampleAddress with streetAddress := some "2 Side St" }).toBlackBerryAddress := by
  obtain ⟨bb, h, h1, h2, _, _, _⟩ := saveToDevice_addresses asciiHost threeAddresses
  exact ⟨bb, h, h1 _ _ rfl, h2 _ _ _ rfl⟩

/-- C20: BlackBerryContacts.findByUniqueId(uid) returns null without querying the store when
uid is null, absent or empty; otherwise it sends the store the one query (uid == uid-argument)
and returns the first record of the result, or null when the result is empty. -/
theorem findByUniqueId_spec (host : Host) (uid : String) :
    findByUniqueId host none = ([], none)
      ∧ findByUniqueId host (some "") = ([], none)
      ∧ (uid ≠ "" →
          (findByUniqueId host (some uid)).1 = [FilterExpression.leaf "uid" "==" uid]
            ∧ (host.find (FilterExpression.leaf "uid" "==" uid) = [] →
                (findByUniqueId host (some uid)).2 = none)
            ∧ (∀ r rest, host.find (FilterExpression.leaf "uid" "==" uid) = r :: rest →
                (findByUniqueId host (some uid)).2 = some r)) := by
  refine ⟨rfl, rfl, ?_⟩
  intro h
  have ht : truthy (some uid) = true := (truthy_some uid).2 h
  refine ⟨?_, ?_, ?_⟩
  · simp [findByUniqueId, ht]
  · intro he
    simp [findByUniqueId, ht, he]
  · intro r rest he
    simp [findByUniqueId, ht, he]

/-- Witness for C20: looking up the uid "7" in a store that holds it, and the uid "8" in the
same store. -/
theorem findByUniqueId_spec_witness :
    (findByUniqueId (storeHost [storedBob]) (some "7")).2 = some storedBob
      ∧ (findByUniqueId (storeHost [storedBob]) (some "8")).2 = none :=
  ⟨((findByUniqueId_spec (storeHost [storedBob]) "7").2.2 (by decide)).2.2 storedBob [] (by decide),
    ((findByUniqueId_spec (storeHost [storedBob]) "8").2.2 (by decide)).2.1 (by decide)⟩

/-! ## The filter expression as a fold (C21) -/

/-- C21: for every non-empty filter text and every list of requested field names whose mapped
entries are list-valued, buildFilterExpression equals the left-nested OR fold
((p1 OR p2) OR p3) ... over the REGEX predicates of the concatenation, in request order and
table order, of the vendor-field lists of the requested names; names that are empty, null or
absent from the mapping table are skipped, so adding such a name anywhere in the list does not
change the result. -/
theorem buildFilterExpression_fold (host : Host) (fields : List (Option String)) (t : String)
    (ht : t ≠ "") (hl : ∀ name ∈ fields, listValued name = true) :
    buildFilterExpression host (some fields) (some t)
        = orFold ((vendorFieldsOf fields).map
            (fun f => FilterExpression.leaf f "REGEX" (patternOf host t)))
      ∧ (∀ (pre post : List (Option String)) (name : Option String), skippedName name →
          buildFilterExpression host (some (pre ++ name :: post)) (some t)
            = buildFilterExpression host (some (pre ++ post)) (some t)) := by
  have htr : truthy (some t) = true := (truthy_some t).2 ht
  constructor
  · have h := foldl_fieldStep (patternOf host t) fields [] hl
    simp only [buildFilterExpression, htr, Bool.not_true, Bool.false_eq_true, if_false,
      Option.getD_some, ciFilter_eq]
    simpa [orFold, patternOf] using h
  · intro pre post name hs
    simp only [buildFilterExpression, htr, Bool.not_true, Bool.false_eq_true, if_false]
    exact foldl_fieldStep_skip _ pre post name none hs

/-- Witness for C21: a request for "name" and "emails" with an empty, a null and an unmapped
name in between. -/
theorem buildFilterExpression_fold_witness :
    buildFilterExpression asciiHost (some mixedRequest) (some "Bob")
      = orFold (["firstName", "lastName", "email1", "email2", "email3"].map
          (fun f => FilterExpression.leaf f "REGEX" (patternOf asciiHost "Bob"))) :=
  (buildFilterExpression_fold asciiHost mixedRequest "Bob" (by decide) (by decide)).1

/-! ## A native callback without a listener (C22) -/

/-- C22, as stated, fails: in the initial state no listener is registered under "w9", and
neither success("w9", fix) nor fail("w9", error) raises anything to its caller. -/
theorem missing_listener_counterexample :
    getListener Geolocation.new.listeners "w9" = none
      ∧ ¬ (∃ e, (Geolocation.new.success "w9" (some { message := some sampleFix })).2 = some e)
      ∧ ¬ (∃ e, (Geolocation.new.fail "w9" (some { status := 2, message := "no fix" })).2
            = some e) := by
  refine ⟨by decide, ?_, ?_⟩
  · rintro ⟨e, he⟩
    have h0 : (Geolocation.new.success "w9" (some { message := some sampleFix })).2 = none := by
      decide
    rw [h0] at he
    cases he
  · rintro ⟨e, he⟩
    have h0 : (Geolocation.new.fail "w9" (some { status := 2, message := "no fix" })).2
        = none := by
      decide
    rw [h0] at he
    cases he

/-- C22, amended: for every id that has no registered listener, the native callbacks
success(id, rawFix) and fail(id, rawError) raise nothing to their caller: the failed lookup
happens inside the try block, is caught and is logged as a callback error; no callback is
called and the listener map is unchanged (success has still set lastPosition). -/
theorem missing_listener_swallowed (st : Geolocation) (id : String) (p : RawFix)
    (e : RawError) (hreg : getListener st.listeners id = none) :
    (st.success id (some { message := some p })).2 = none
      ∧ (st.success id (some { message := some p })).1.console
          = st.console ++ [successCallbackError]
      ∧ (st.success id (some { message := some p })).1.calls = st.calls
      ∧ (st.success id (some { message := some p })).1.listeners = st.listeners
      ∧ (st.success id (some { message := some p })).1.lastPosition = some (positionOf p)
      ∧ (st.fail id (some e)).2 = none
      ∧ (st.fail id (some e)).1.console = st.console ++ [errorCallbackError]
      ∧ (st.fail id (some e)).1.calls = st.calls
      ∧ (st.fail id (some e)).1.listeners = st.listeners
      ∧ (st.fail id (some e)).1.lastPosition = st.lastPosition := by
  have hdel : id = "global" → deleteListener st.listeners "global" = st.listeners := by
    intro hg
    exact deleteListener_of_absent st.listeners "global" (hg ▸ hreg)
  refine ⟨rfl, ?_, ?_, ?_, ?_, rfl, ?_, ?_, ?_, ?_⟩ <;>
    simp only [Geolocation.success, Geolocation.fail, hreg, catchAndLog, cleanupGlobal,
      positionOf] <;>
    by_cases hg : id = "global" <;> simp [hg, hdel]

/-- Witness for C22: a fix and an error for the id "w9" in a state that only knows "w1". -/
theorem missing_listener_swallowed_witness :
    (watchingState.success "w9" (some { message := some sampleFix })).2 = none
      ∧ (watchingState.success "w9" (some { message := some sampleFix })).1.console
          = [successCallbackError]
      ∧ (watchingState.fail "w9" (some { status := 2, message := "no fix" })).2 = none :=
  have h := missing_listener_swallowed watchingState "w9" sampleFix
    { status := 2, message := "no fix" } (by decide)
  ⟨h.1, h.2.1, h.2.2.2.2.2.1⟩

/-! ## Filled slots are kept (C23) -/

/-- C23: saveToDevice never overwrites a non-empty slot among email1, email2, email3, the
eight phone slots, webpage and company: for every contact, so for every one whose id resolves
to an existing vendor record, each of those slots of the record being written that is not the
empty string before the call holds the same value after it, whatever the emails,
phoneNumbers, urls and organizations of the contact contain. -/
theorem saveToDevice_keeps_filled (host : Host) (c : Contact) :
    ∃ bb, saveToDevice host (some c) = some bb
      ∧ ((recordFor host c).email1 ≠ some "" → bb.email1 = (recordFor host c).email1)
      ∧ ((recordFor host c).email2 ≠ some "" → bb.email2 = (recordFor host c).email2)
      ∧ ((recordFor host c).email3 ≠ some "" → bb.email3 = (recordFor host c).email3)
      ∧ keepsPhones (recordFor host c) bb
      ∧ ((recordFor host c).webpage ≠ some "" → bb.webpage = (recordFor host c).webpage)
      ∧ ((recordFor host c).company ≠ some "" → bb.company = (recordFor host c).company) := by
  obtain ⟨e1, e2, e3⟩ := emailLoop_keeps (arrayOf c.emails) (recordFor host c)
  have hp := phoneLoop_keeps (arrayOf c.phoneNumbers) (recordFor host c)
  refine ⟨_, rfl, ?_, ?_, ?_, ?_, ?_, ?_⟩
  · rw [copyToBlackBerry_eq]
    exact e1
  · rw [copyToBlackBerry_eq]
    exact e2
  · rw [copyToBlackBerry_eq]
    exact e3
  · rw [copyToBlackBerry_eq]
    exact hp
  · rw [copyToBlackBerry_eq]
    exact urlLoop_keeps (arrayOf c.urls) (recordFor host c)
  · rw [copyToBlackBerry_eq]
    exact orgLoop_keeps (arrayOf c.organizations) (recordFor host c)

/-- Witness for C23: the stored home phone survives an update that brings another "home"
number. -/
theorem saveToDevice_keeps_filled_witness :
    ∃ bb, saveToDevice (storeHost [storedBob]) (some fullUpdate) = some bb
      ∧ bb.homePhone = some "555-1234" := by
  obtain ⟨bb, h, _, _, _, hp, _, _⟩ := saveToDevice_keeps_filled (storeHost [storedBob]) fullUpdate
  have hr : recordFor (storeHost [storedBob]) fullUpdate = storedBob := by decide
  rw [hr] at hp
  exact ⟨bb, h, hp.1 (by decide)⟩

/-! ## The forwarded timeout (C24) -/

/-- C24: a caller-supplied timeout of exactly 0 is treated as absent: getCurrentPosition (when
it dispatches) forwards 3600000 and watchPosition forwards 10000 when options.timeout is 0 or
missing, and for every options object the forwarded timeout is that default, 0 for a
negative input, or the positive input unchanged, hence never negative. -/
theorem forwarded_timeout (uuid : String) (st : Geolocation) (s f : Option Callback)
    (options : Option PositionOptions) :
    ∃ t1 t2 : Int,
      (getListener st.listeners "global" = none →
        (getCurrentPosition st s f options).execLog = st.execLog ++
          [{ success := none, fail := f, service := "Geolocation",
             action := "getCurrentPosition",
             args := [.str "global", .num (maximumAgeOf options), .num t1,
                      .bool (enableHighAccuracyOf options)] }])
      ∧ (watchPosition uuid st s f options).1.execLog = st.execLog ++
          [{ success := none, fail := f, service := "Geolocation",
             action := "watchPosition",
             args := [.str uuid, .num (maximumAgeOf options), .num t2,
                      .bool (enableHighAccuracyOf options)] }]
      ∧ (options = none → t1 = 3600000 ∧ t2 = 10000)
      ∧ (∀ o, options = some o → o.timeout = none → t1 = 3600000 ∧ t2 = 10000)
      ∧ (∀ o, options = some o → o.timeout = some 0 → t1 = 3600000 ∧ t2 = 10000)
      ∧ (∀ o t, options = some o → o.timeout = some t → t < 0 → t1 = 0 ∧ t2 = 0)
      ∧ (∀ o t, options = some o → o.timeout = some t → 0 < t → t1 = t ∧ t2 = t)
      ∧ 0 ≤ t1 ∧ 0 ≤ t2 := by
  refine ⟨timeoutOf 3600000 options, timeoutOf 10000 options, ?_, ?_, ?_, ?_, ?_, ?_, ?_, ?_, ?_⟩
  · intro h
    simp [getCurrentPosition, h]
  · simp [watchPosition]
  · intro h
    simp [timeoutOf, h]
  · intro o ho ht
    simp [timeoutOf, ho, ht]
  · intro o ho ht
    simp [timeoutOf, ho, ht]
  · intro o t ho ht hneg
    have hne : t ≠ 0 := by omega
    simp [timeoutOf, ho, ht, hne, hneg]
  · intro o t ho ht hpos
    have hne : t ≠ 0 := by omega
    have hnn : ¬ t < 0 := by omega
    simp [timeoutOf, ho, ht, hne, hnn]
  · unfold timeoutOf
    split
    · decide
    · split
      · decide
      · split_ifs <;> omega
  · unfold timeoutOf
    split
    · decide
    · split
      · decide
      · split_ifs <;> omega

/-- Witness for C24: a timeout of 0 in the initial state. -/
theorem forwarded_timeout_witness :
    ∃ t1 t2 : Int,
      (getCurrentPosition Geolocation.new none none
          (some { maximumAge := none, timeout := some 0, enableHighAccuracy := none })).execLog
        = [{ success := none, fail := none, service := "Geolocation",
             action := "getCurrentPosition",
             args := [.str "global", .num 0, .num t1, .bool false] }]
      ∧ t1 = 3600000 ∧ t2 = 10000 := by
  obtain ⟨t1, t2, h1, _, _, _, h5, _⟩ :=
    forwarded_timeout "w1" Geolocation.new none none
      (some { maximumAge := none, timeout := some 0, enableHighAccuracy := none })
  have ht := h5 _ rfl rfl
  exact ⟨t1, t2, h1 rfl, ht.1, ht.2⟩

/-! ## Release of the one-shot slot (C25) -/

/-- C25: starting from a state with no "global" listener, a getCurrentPosition is admitted
(registered under "global" and dispatched); after the delivery success("global", fix) or
fail("global", err) the listener map has no "global" entry and equals the map before the
request, so the next getCurrentPosition is admitted again (registered and dispatched, not
rejected); a delivery to a watch id in between leaves the listener map, and so the "global"
entry, as it is. -/
theorem oneShot_released (st : Geolocation) (s f s2 f2 : Option Callback)
    (o o2 : Option PositionOptions) (p : RawFix) (e : RawError)
    (hno : getListener st.listeners "global" = none) :
    ∃ st1 st2 st3 : Geolocation,
      st1 = getCurrentPosition st s f o
      ∧ st2 = (st1.success "global" (some { message := some p })).1
      ∧ st3 = (st1.fail "global" (some e)).1
      ∧ getListener st1.listeners "global" = some { success := s, fail := f }
      ∧ st1.execLog = st.execLog ++
          [{ success := none, fail := f, service := "Geolocation",
             action := "getCurrentPosition",
             args := [.str "global", .num (maximumAgeOf o), .num (timeoutOf 3600000 o),
                      .bool (enableHighAccuracyOf o)] }]
      ∧ st2.listeners = st.listeners ∧ getListener st2.listeners "global" = none
      ∧ st3.listeners = st.listeners ∧ getListener st3.listeners "global" = none
      ∧ getListener (getCurrentPosition st2 s2 f2 o2).listeners "global"
          = some { success := s2, fail := f2 }
      ∧ (getCurrentPosition st2 s2 f2 o2).execLog = st2.execLog ++
          [{ success := none, fail := f2, service := "Geolocation",
             action := "getCurrentPosition",
             args := [.str "global", .num (maximumAgeOf o2), .num (timeoutOf 3600000 o2),
                      .bool (enableHighAccuracyOf o2)] }]
      ∧ getListener (getCurrentPosition st3 s2 f2 o2).listeners "global"
          = some { success := s2, fail := f2 }
      ∧ (getCurrentPosition st3 s2 f2 o2).execLog = st3.execLog ++
          [{ success := none, fail := f2, service := "Geolocation",
             action := "getCurrentPosition",
             args := [.str "global", .num (maximumAgeOf o2), .num (timeoutOf 3600000 o2),
                      .bool (enableHighAccuracyOf o2)] }]
      ∧ (∀ (id : String) (r : Option FixResult) (r2 : Option RawError), id ≠ "global" →
          (st1.success id r).1.listeners = st1.listeners
            ∧ (st1.fail id r2).1.listeners = st1.listeners
            ∧ getListener (st1.success id r).1.listeners "global"
                = some { success := s, fail := f }
            ∧ getListener (st1.fail id r2).1.listeners "global"
                = some { success := s, fail := f }) := by
  obtain ⟨a1, a2⟩ := getCurrentPosition_admitted st s f o hno
  have hreg : getListener (getCurrentPosition st s f o).listeners "global"
      = some { success := s, fail := f } := by
    rw [a1]
    exact getListener_setListener_self st.listeners "global" _
  have h2 : ((getCurrentPosition st s f o).success "global"
      (some { message := some p })).1.listeners = st.listeners := by
    rw [(success_listeners _ _ _).1]
    simp only [cleanupGlobal, if_true, a1]
    exact deleteListener_setListener st.listeners "global" _ hno
  have h3 : ((getCurrentPosition st s f o).fail "global" (some e)).1.listeners
      = st.listeners := by
    rw [(fail_listeners _ _ _).1]
    simp only [cleanupGlobal, if_true, a1]
    exact deleteListener_setListener st.listeners "global" _ hno
  have n2 : getListener ((getCurrentPosition st s f o).success "global"
      (some { message := some p })).1.listeners "global" = none := by
    rw [h2]
    exact hno
  have n3 : getListener ((getCurrentPosition st s f o).fail "global" (some e)).1.listeners
      "global" = none := by
    rw [h3]
    exact hno
  refine ⟨_, _, _, rfl, rfl, rfl, hreg, a2, h2, n2, h3, n3, ?_, ?_, ?_, ?_, ?_⟩
  · rw [(getCurrentPosition_admitted _ s2 f2 o2 n2).1]
    exact getListener_setListener_self _ "global" _
  · exact (getCurrentPosition_admitted _ s2 f2 o2 n2).2
  · rw [(getCurrentPosition_admitted _ s2 f2 o2 n3).1]
    exact getListener_setListener_self _ "global" _
  · exact (getCurrentPosition_admitted _ s2 f2 o2 n3).2
  · intro id r r2 hid
    have w1 := success_listeners_watch (getCurrentPosition st s f o) id r hid
    have w2 := fail_listeners_watch (getCurrentPosition st s f o) id r2 hid
    refine ⟨w1, w2, ?_, ?_⟩
    · rw [w1]
      exact hreg
    · rw [w2]
      exact hreg

/-- Witness for C25: a one-shot request next to a watch, a fix for the watch, then the fix for
the request, then a second request. -/
theorem oneShot_released_witness :
    ((getCurrentPosition watchingState (some (okCallback 1)) (some (okCallback 2)) none).success
        "global" (some { message := some sampleFix })).1.listeners = watchingState.listeners
      ∧ getListener
          ((getCurrentPosition watchingState (some (okCallback 1)) (some (okCallback 2))
            none).success "w1" (some { message := some sampleFix })).1.listeners "global"
          = some { success := some (okCallback 1), fail := some (okCallback 2) } := by
  obtain ⟨st1, st2, st3, e1, e2, _, _, _, h2, _, _, _, _, _, _, _, hw⟩ :=
    oneShot_released watchingState (some (okCallback 1)) (some (okCallback 2)) none none none
      none sampleFix { status := 2, message := "no fix" } (by decide)
  subst e1 e2
  exact ⟨h2, (hw "w1" (some { message := some sampleFix }) none (by decide)).2.2.1⟩

end CordovaBlackBerry
